import Mathlib

/-!
Verification of the team-formation Ant Colony Optimization repository
(variant v1 in aco_v1.py, variant v2 in v2/aco.py).

Shallow-embedding conventions used throughout this file:

* Python floats are modelled as exact rationals (ℚ); the float literal 1e-6
  becomes 1/1000000 and 1e-5 becomes 1/100000.
* The configuration exponents alpha and beta are modelled as naturals; every
  configuration appearing in the repository uses integral exponents
  (v1 defaults alpha=1.0, beta=2.0; v2/main.py passes alpha=1.0, beta=3.0).
* The global random source is modelled as an explicit stream of rational
  draws: a call of random.random() pops the head of the stream (0 when the
  stream is exhausted); random.shuffle and random.choice derive an index
  from a draw u in [0,1) as min ⌊u * n⌋ (n-1).  Functions that consume
  randomness take the stream and return the remaining stream.
* Python code that raises an exception is modelled with Option, none
  standing for the raised exception.
* In-place mutation of a Team object held inside a list is modelled by
  rebuilding the list, replacing the team carrying the mutated team's id;
  the team ids of the freshly constructed teams are pairwise distinct, so
  exactly one list entry is replaced.
-/

namespace TfpAco

/-- Model of class Student in aco_v1.py: identity, ordered project
preference list, Belbin role and nationality labels. -/
structure Student where
  id : ℕ
  prefs : List ℕ
  belbin : String
  nationality : String
  deriving DecidableEq

instance : Inhabited Student := ⟨⟨0, [], "", ""⟩⟩

/-- Model of Student.satisfaction: rank = prefs.index(project),
result (len(prefs) - 1 - rank) / (len(prefs) - 1), computed in exact
rational arithmetic. -/
def Student.satisfaction (s : Student) (project : ℕ) : ℚ :=
  let rank := s.prefs.indexOf project
  ((s.prefs.length : ℚ) - 1 - (rank : ℚ)) / ((s.prefs.length : ℚ) - 1)

/-- Model of class Team in aco_v1.py. -/
structure Team where
  id : ℕ
  project : ℕ
  capacity : ℕ
  students : List Student
  deriving DecidableEq

instance : Inhabited Team := ⟨⟨0, 0, 0, []⟩⟩

/-- Model of Team.can_add.  The Python default arguments max_same_nat=2 and
unlimited_nat="Dutch" are passed explicitly by callers of this embedding;
the call site in ACO.construct_solution uses exactly those defaults. -/
def Team.can_add (t : Team) (s : Student) (max_same_nat : ℕ) (unlimited_nat : String) : Bool :=
  if t.capacity ≤ t.students.length then false
  else if s.nationality = unlimited_nat then true
  else decide ((t.students.filter (fun x => x.nationality = s.nationality)).length < max_same_nat)

/-- Model of Team.add: append the student to the member list. -/
def Team.add (t : Team) (s : Student) : Team :=
  { t with students := t.students ++ [s] }

/-- Model of Team._satisfaction_score: 0 for an empty team, otherwise the
mean member satisfaction with the team's project. -/
def Team.satisfaction_score (t : Team) : ℚ :=
  if t.students = [] then 0
  else (t.students.map (fun s => s.satisfaction t.project)).sum / (t.students.length : ℚ)

/-- Model of Team._belbin_diversity: 0 for an empty team, otherwise the
number of distinct Belbin roles among members divided by the member count. -/
def Team.belbin_diversity (t : Team) : ℚ :=
  if t.students = [] then 0
  else ((t.students.map Student.belbin).dedup.length : ℚ) / (t.students.length : ℚ)

/-- Model of Team.fitness: 0.5 * satisfaction score + 0.5 * Belbin
diversity. -/
def Team.fitness (t : Team) : ℚ :=
  (1/2) * t.satisfaction_score + (1/2) * t.belbin_diversity

/-- Helper: indexOf of the k-th element of a duplicate-free list is k. -/
theorem indexOf_get_of_nodup {l : List ℕ} (hnd : l.Nodup) (k : ℕ) (hk : k < l.length) :
    l.indexOf (l.get ⟨k, hk⟩) = k := by
  induction l generalizing k with
  | nil => simp at hk
  | cons a l ih =>
    rcases k with _ | k
    · simp [List.indexOf_cons]
    · have ha : a ∉ l := (List.nodup_cons.mp hnd).1
      have hmem : l.get ⟨k, Nat.lt_of_succ_lt_succ hk⟩ ∈ l := l.get_mem _ _
      have hne : a ≠ l.get ⟨k, Nat.lt_of_succ_lt_succ hk⟩ := by
        intro h; exact ha (h ▸ hmem)
      have hbeq : (a == l.get ⟨k, Nat.lt_of_succ_lt_succ hk⟩) = false :=
        beq_eq_false_iff_ne.mpr hne
      simp only [List.get_cons_succ, List.indexOf_cons, hbeq, cond_false]
      have := ih (List.nodup_cons.mp hnd).2 k (Nat.lt_of_succ_lt_succ hk)
      simp only [List.get_eq_getElem] at this
      simp [this]

/-- C8: can_add is false at (or above) capacity for every attribute value;
below capacity it is unconditionally true for the unrestricted value, and
otherwise true exactly when the number of members sharing the individual's
attribute value is strictly below the configured cap. -/
theorem v1_can_add_spec (t : Team) (s : Student) (cap : ℕ) (unl : String) :
    (t.students.length = t.capacity → t.can_add s cap unl = false)
    ∧ (t.students.length < t.capacity → s.nationality = unl → t.can_add s cap unl = true)
    ∧ (t.students.length < t.capacity → s.nationality ≠ unl →
        (t.can_add s cap unl = true ↔
          (t.students.filter (fun x => x.nationality = s.nationality)).length < cap)) := by
  refine ⟨?_, ?_, ?_⟩
  · intro h
    unfold Team.can_add
    rw [if_pos (le_of_eq h.symm)]
  · intro h hnat
    unfold Team.can_add
    rw [if_neg (by omega), if_pos hnat]
  · intro h hnat
    unfold Team.can_add
    rw [if_neg (by omega), if_neg hnat]
    exact decide_eq_true_iff

/-- Witness for C8: a team of capacity 2 holding one member of nationality
"A" accepts a second "A" member under the default cap 2. -/
theorem v1_can_add_spec_witness :
    Team.can_add ⟨0, 0, 2, [⟨1, [], "", "A"⟩]⟩ ⟨2, [], "", "A"⟩ 2 "Dutch" = true :=
  ((v1_can_add_spec ⟨0, 0, 2, [⟨1, [], "", "A"⟩]⟩ ⟨2, [], "", "A"⟩ 2 "Dutch").2.2
    (by decide) (by decide)).mpr (by decide)

/-- C9: for a duplicate-free preference list of length at least two (as is
the case for a permutation of at least two projects), satisfaction at the
project of rank k equals (n-1-k)/(n-1); in particular it is 1 at the top
rank, 0 at the bottom rank, and non-increasing as the rank worsens. -/
theorem v1_satisfaction_spec (s : Student) (hnd : s.prefs.Nodup) (h2 : 2 ≤ s.prefs.length) :
    (∀ k (hk : k < s.prefs.length),
        s.satisfaction (s.prefs.get ⟨k, hk⟩) =
          ((s.prefs.length : ℚ) - 1 - (k : ℚ)) / ((s.prefs.length : ℚ) - 1))
    ∧ s.satisfaction (s.prefs.get ⟨0, by omega⟩) = 1
    ∧ s.satisfaction (s.prefs.get ⟨s.prefs.length - 1, by omega⟩) = 0
    ∧ (∀ k k' (hk : k < s.prefs.length) (hk' : k' < s.prefs.length), k ≤ k' →
        s.satisfaction (s.prefs.get ⟨k', hk'⟩) ≤ s.satisfaction (s.prefs.get ⟨k, hk⟩)) := by
  have hn1 : (0 : ℚ) < (s.prefs.length : ℚ) - 1 := by
    have : (2 : ℚ) ≤ (s.prefs.length : ℚ) := by exact_mod_cast h2
    linarith
  have hform : ∀ k (hk : k < s.prefs.length),
      s.satisfaction (s.prefs.get ⟨k, hk⟩) =
        ((s.prefs.length : ℚ) - 1 - (k : ℚ)) / ((s.prefs.length : ℚ) - 1) := by
    intro k hk
    unfold Student.satisfaction
    rw [indexOf_get_of_nodup hnd k hk]
  refine ⟨hform, ?_, ?_, ?_⟩
  · rw [hform 0 (by omega)]
    push_cast
    rw [sub_zero, div_self (ne_of_gt hn1)]
  · rw [hform (s.prefs.length - 1) (by omega)]
    have hcast : ((s.prefs.length - 1 : ℕ) : ℚ) = (s.prefs.length : ℚ) - 1 := by
      have : 1 ≤ s.prefs.length := by omega
      push_cast [this]
      ring
    rw [hcast, sub_self, zero_div]
  · intro k k' hk hk' hkk
    rw [hform k hk, hform k' hk']
    have hnum : (s.prefs.length : ℚ) - 1 - (k' : ℚ) ≤ (s.prefs.length : ℚ) - 1 - (k : ℚ) := by
      have : (k : ℚ) ≤ (k' : ℚ) := by exact_mod_cast hkk
      linarith
    exact (div_le_div_iff_of_pos_right hn1).mpr hnum

/-- Witness for C9: for the preference list [10, 20, 30], the top choice
has satisfaction 1. -/
theorem v1_satisfaction_spec_witness :
    Student.satisfaction ⟨0, [10, 20, 30], "", ""⟩ 10 = 1 := by
  have h := (v1_satisfaction_spec ⟨0, [10, 20, 30], "", ""⟩ (by decide) (by decide)).2.1
  simpa using h

/-- The pheromone matrix tau of aco_v1.py: one row per student, one column
per team. -/
abbrev Tau := List (List ℚ)

/-- Read entry (i, j) of the pheromone matrix; 0 outside the matrix (the
Python code only ever addresses entries inside the matrix). -/
def mget (m : Tau) (i j : ℕ) : ℚ := (m.getD i []).getD j 0

/-- Apply f to entry (i, j) of the matrix, in place; indices outside the
matrix leave it unchanged (Python would raise IndexError there; no caller
in the source does). -/
def mApply (m : Tau) (i j : ℕ) (f : ℚ → ℚ) : Tau :=
  m.set i ((m.getD i []).set j (f ((m.getD i []).getD j 0)))

theorem getD_set_self {l : List ℚ} {j : ℕ} {a : ℚ} (hj : j < l.length) :
    (l.set j a).getD j 0 = a := by
  rw [List.getD_eq_getElem _ _ (by simpa using hj)]
  exact List.getElem_set_self _

theorem getD_set_ne {l : List ℚ} {i j : ℕ} {a : ℚ} (h : i ≠ j) :
    (l.set i a).getD j 0 = l.getD j 0 := by
  rw [List.getD_eq_getD_get?, List.get?_eq_getElem?, List.getElem?_set_ne h,
    ← List.get?_eq_getElem?, ← List.getD_eq_getD_get?]

theorem getD_row_set_self {m : Tau} {i : ℕ} {r : List ℚ} (hi : i < m.length) :
    (m.set i r).getD i [] = r := by
  rw [List.getD_eq_getElem _ _ (by simpa using hi)]
  exact List.getElem_set_self _

theorem getD_row_set_ne {m : Tau} {i i' : ℕ} {r : List ℚ} (h : i ≠ i') :
    (m.set i r).getD i' [] = m.getD i' [] := by
  rw [List.getD_eq_getD_get?, List.get?_eq_getElem?, List.getElem?_set_ne h,
    ← List.get?_eq_getElem?, ← List.getD_eq_getD_get?]

theorem mget_mApply_self {m : Tau} {i j : ℕ} {f : ℚ → ℚ}
    (hi : i < m.length) (hj : j < (m.getD i []).length) :
    mget (mApply m i j f) i j = f (mget m i j) := by
  unfold mget mApply
  rw [getD_row_set_self hi, getD_set_self hj]

theorem mget_mApply_ne {m : Tau} {i j i' j' : ℕ} {f : ℚ → ℚ}
    (h : i ≠ i' ∨ j ≠ j') :
    mget (mApply m i j f) i' j' = mget m i' j' := by
  unfold mget mApply
  by_cases hii : i = i'
  · subst hii
    rcases h with h | h
    · exact absurd rfl h
    · by_cases hlen : i < m.length
      · rw [getD_row_set_self hlen, getD_set_ne h]
      · rw [List.set_eq_of_length_le (by omega)]
  · rw [getD_row_set_ne hii]

theorem length_mApply (m : Tau) (i j : ℕ) (f : ℚ → ℚ) :
    (mApply m i j f).length = m.length := by
  unfold mApply
  exact m.length_set _ _

theorem rowlength_mApply (m : Tau) (i j i' : ℕ) (f : ℚ → ℚ) :
    ((mApply m i j f).getD i' []).length = (m.getD i' []).length := by
  unfold mApply
  by_cases hii : i = i'
  · subst hii
    by_cases hlen : i < m.length
    · rw [getD_row_set_self hlen, List.length_set]
    · rw [List.set_eq_of_length_le (by omega)]
  · rw [getD_row_set_ne hii]

/-- Configuration of class ACO in aco_v1.py (the exponents alpha and beta
are modelled as naturals, see the header). -/
structure ACOConfig where
  n_projects : ℕ
  teams_per_project : ℕ
  team_size : ℕ
  alpha : ℕ
  beta : ℕ
  rho : ℚ
  n_ants : ℕ
  n_iter : ℕ
  q : ℚ
  deriving DecidableEq

/-- n_teams = n_projects * teams_per_project. -/
def ACOConfig.n_teams (cfg : ACOConfig) : ℕ := cfg.n_projects * cfg.teams_per_project

/-- The template teams created in ACO.__init__: team j serves project
j / teams_per_project and has capacity team_size.  ACO.construct_solution
recreates exactly these teams (same id, project, capacity, empty member
list) at the start of every candidate construction. -/
def base_teams (cfg : ACOConfig) : List Team :=
  (List.range cfg.n_teams).map (fun j => ⟨j, j / cfg.teams_per_project, cfg.team_size, []⟩)

/-- Model of ACO.heuristic: the predicted quality of placing the student
into the team, 0.5 * satisfaction + 0.5 * (roles after adding / team_size),
plus the epsilon 1e-6. -/
def v1_heuristic (cfg : ACOConfig) (s : Student) (t : Team) : ℚ :=
  let sat := s.satisfaction t.project
  let nroles := ((s.belbin :: t.students.map Student.belbin).dedup).length
  let belbin : ℚ := (nroles : ℚ) / (cfg.team_size : ℚ)
  (1/2) * sat + (1/2) * belbin + 1/1000000

/-- The selection weight tau[s.id][t.id] ** alpha * heuristic(s, t) ** beta
computed in ACO.construct_solution. -/
def v1_weight (cfg : ACOConfig) (tau : Tau) (s : Student) (t : Team) : ℚ :=
  (mget tau s.id t.id) ^ cfg.alpha * (v1_heuristic cfg s t) ^ cfg.beta

/-- Pop one draw from the random stream (0 once the stream is exhausted). -/
def randDraw (g : List ℚ) : ℚ × List ℚ :=
  match g with
  | [] => (0, [])
  | u :: rest => (u, rest)

/-- Turn a draw u in [0,1) into an index below n (n positive). -/
def pickIdx (u : ℚ) (n : ℕ) : ℕ := min (Int.toNat ⌊u * (n : ℚ)⌋) (n - 1)

/-- Model of random.shuffle: repeatedly extract the element at a
drawn index.  The fuel argument is the length of the list. -/
def shuffleGo {α : Type} [Inhabited α] : ℕ → List α → List ℚ → List α × List ℚ
  | 0, xs, g => (xs, g)
  | Nat.succ _, [], g => ([], g)
  | Nat.succ k, x0 :: xs0, g =>
    let i := pickIdx ((randDraw g).1) (x0 :: xs0).length
    let rest := (x0 :: xs0).take i ++ (x0 :: xs0).drop (i + 1)
    (((x0 :: xs0).getD i default) :: (shuffleGo k rest (randDraw g).2).1,
      (shuffleGo k rest (randDraw g).2).2)

/-- Shuffle a list using draws from the stream. -/
def shuffleL {α : Type} [Inhabited α] (xs : List α) (g : List ℚ) : List α × List ℚ :=
  shuffleGo xs.length xs g

/-- Elements produced by the shuffle all come from the input list. -/
theorem mem_shuffleGo {k : ℕ} {xs : List Student} {g : List ℚ} {y : Student}
    (hy : y ∈ (shuffleGo k xs g).1) : y ∈ xs := by
  induction k generalizing xs g with
  | zero => simpa [shuffleGo] using hy
  | succ k ih =>
    match xs with
    | [] => simp [shuffleGo] at hy
    | x0 :: xs0 =>
      simp only [shuffleGo, List.mem_cons] at hy
      rcases hy with h | h
      · subst h
        have hlt : pickIdx ((randDraw g).1) (x0 :: xs0).length < (x0 :: xs0).length := by
          have : pickIdx ((randDraw g).1) (x0 :: xs0).length ≤ (x0 :: xs0).length - 1 :=
            Nat.min_le_right _ _
          simp only [List.length_cons] at this ⊢
          omega
        rw [List.getD_eq_getElem _ _ hlt]
        exact List.getElem_mem hlt
      · rcases List.mem_append.mp (ih h) with h1 | h1
        · exact List.take_subset _ _ h1
        · exact List.drop_subset _ _ h1

/-- Model of the cumulative-sum inversion loop in ACO.construct_solution:
walk the (team, probability) pairs accumulating weight and return the first
team whose cumulative weight reaches the threshold r; none models a loop
that falls through without binding chosen_team. -/
def select_go (r : ℚ) (cum : ℚ) : List (Team × ℚ) → Option Team
  | [] => none
  | (t, p) :: rest =>
    if r ≤ cum + p then some t else select_go r (cum + p) rest

/-- If the threshold does not exceed the accumulated total weight, the
selection loop binds some team. -/
theorem select_go_isSome {l : List (Team × ℚ)} {r cum : ℚ}
    (hne : l ≠ []) (hr : r ≤ cum + (l.map Prod.snd).sum) :
    (select_go r cum l).isSome = true := by
  induction l generalizing cum with
  | nil => exact absurd rfl hne
  | cons a rest ih =>
    obtain ⟨t, p⟩ := a
    simp only [select_go]
    by_cases h : r ≤ cum + p
    · rw [if_pos h]; rfl
    · rw [if_neg h]
      rcases rest with _ | ⟨b, rest'⟩
      · exfalso
        apply h
        simpa using hr
      · apply ih (by simp)
        simp only [List.map_cons, List.sum_cons] at hr ⊢
        linarith

/-- Replace, inside the team list, the team carrying the chosen team's id
by the team with the student appended (models the in-place
chosen_team.add(s) of the Python code; ids of constructed teams are
pairwise distinct). -/
def addToTeams (teams : List Team) (chosen : Team) (s : Student) : List Team :=
  teams.map (fun t => if t.id = chosen.id then t.add s else t)

/-- The feasible team list computed in ACO.construct_solution: the teams
passing can_add (with its Python default arguments), or, when none does,
the teams with free capacity. -/
def v1_feasible (teams : List Team) (s : Student) : List Team :=
  let feasible0 := teams.filter (fun t => t.can_add s 2 "Dutch")
  if feasible0 = [] then teams.filter (fun t => t.students.length < t.capacity)
  else feasible0

/-- The conditions under which Python's weight computation for one
(student, team) pair raises while building the probabilities list:
an out-of-matrix pheromone read self.tau[s.id][t.id] (IndexError), a team
project absent from the student's preference list (ValueError in
list.index inside satisfaction), a singleton preference list
(ZeroDivisionError in satisfaction's division by len(prefs) - 1), or a
zero team_size (ZeroDivisionError in heuristic's division). -/
def v1_weight_raises (cfg : ACOConfig) (tau : Tau) (s : Student) (t : Team) : Bool :=
  decide (tau.length ≤ s.id) || decide ((tau.getD s.id []).length ≤ t.id)
    || decide (t.project ∉ s.prefs) || decide (s.prefs.length = 1)
    || decide (cfg.team_size = 0)

/-- Model of one loop body of ACO.construct_solution: place one student.
none models an uncaught Python exception: a raise inside the
probabilities loop (see v1_weight_raises), random.choice on an empty
sequence when every team is full, or a fall-through of the selection loop
leaving chosen_team unbound. -/
def v1_place (cfg : ACOConfig) (tau : Tau) (teams : List Team) (s : Student)
    (g : List ℚ) : Option (List Team × List ℚ) :=
  let feasible := v1_feasible teams s
  if feasible.any (fun t => v1_weight_raises cfg tau s t) then none
  else
    let probabilities := feasible.map (fun t => v1_weight cfg tau s t)
    let total := probabilities.sum
    if total = 0 then
      if feasible = [] then none
      else some (addToTeams teams
        (feasible.getD (pickIdx (randDraw g).1 feasible.length) default) s, (randDraw g).2)
    else
      match select_go ((randDraw g).1 * total) 0 (feasible.zip probabilities) with
      | none => none
      | some chosen => some (addToTeams teams chosen s, (randDraw g).2)

/-- Model of the per-student loop of ACO.construct_solution. -/
def v1_construct_go (cfg : ACOConfig) (tau : Tau) :
    List Student → List Team → List ℚ → Option (List Team × List ℚ)
  | [], teams, g => some (teams, g)
  | s :: rest, teams, g =>
    match v1_place cfg tau teams s g with
    | none => none
    | some (teams1, g1) => v1_construct_go cfg tau rest teams1 g1

/-- Model of ACO.construct_solution: shuffle the students, place each one
in turn into the freshly created teams, and return the teams together with
the mean team fitness (sum of team fitness divided by n_teams). -/
def v1_construct (cfg : ACOConfig) (tau : Tau) (students : List Student)
    (g : List ℚ) : Option ((List Team × ℚ) × List ℚ) :=
  match v1_construct_go cfg tau (shuffleL students g).1 (base_teams cfg) (shuffleL students g).2 with
  | none => none
  | some (teams, g2) =>
    if cfg.n_teams = 0 then none
    else some ((teams, (teams.map Team.fitness).sum / (cfg.n_teams : ℚ)), g2)

/-- C10: with a non-empty feasible list, matching weight list, a draw u in
[0,1) and a strictly positive weight total, the cumulative-sum inversion
loop of ACO.construct_solution always binds a chosen team: the threshold
u * total is strictly below the total, and the cumulative sum accumulated
in the same order as the total reaches the total at the last pair. -/
theorem v1_select_binds (feasible : List Team) (probabilities : List ℚ) (u : ℚ)
    (hne : feasible ≠ []) (hlen : probabilities.length = feasible.length)
    (hu0 : 0 ≤ u) (hu1 : u < 1) (hpos : 0 < probabilities.sum) :
    (select_go (u * probabilities.sum) 0 (feasible.zip probabilities)).isSome = true := by
  apply select_go_isSome
  · intro hzip
    have := congrArg List.length hzip
    rw [List.length_zip, hlen, min_self] at this
    exact hne (List.length_eq_zero.mp this)
  · have hsnd : (feasible.zip probabilities).map Prod.snd = probabilities :=
      List.map_snd_zip feasible probabilities (le_of_eq hlen)
    rw [hsnd, zero_add]
    nlinarith

/-- Witness for C10: one feasible team with weight 1 and draw 0. -/
theorem v1_select_binds_witness :
    (select_go ((0 : ℚ) * [(1 : ℚ)].sum) 0
      ([(⟨0, 0, 1, []⟩ : Team)].zip [(1 : ℚ)])).isSome = true :=
  v1_select_binds [⟨0, 0, 1, []⟩] [1] 0 (by decide) (by decide)
    (by norm_num) (by norm_num) (by norm_num)

/-- One entry of the evaporation stage of ACO.update_pheromones: multiply
by (1 - rho), then clamp below at 1e-6. -/
def v1_decay_entry (rho : ℚ) (w : ℚ) : ℚ :=
  let w1 := w * (1 - rho)
  if w1 < 1/1000000 then 1/1000000 else w1

/-- The evaporation stage of ACO.update_pheromones applied to every entry
of the matrix. -/
def v1_decay (rho : ℚ) (tau : Tau) : Tau :=
  tau.map (fun row => row.map (v1_decay_entry rho))

theorem v1_decay_entry_eq_max (rho w : ℚ) :
    v1_decay_entry rho w = max (1/1000000) (w * (1 - rho)) := by
  unfold v1_decay_entry
  by_cases h : w * (1 - rho) < 1/1000000
  · rw [if_pos h, max_eq_left (le_of_lt h)]
  · rw [if_neg h, max_eq_right (le_of_not_lt h)]

theorem length_v1_decay (rho : ℚ) (tau : Tau) :
    (v1_decay rho tau).length = tau.length := by
  unfold v1_decay
  exact tau.length_map _

theorem rowlength_v1_decay (rho : ℚ) (tau : Tau) (i : ℕ) :
    ((v1_decay rho tau).getD i []).length = (tau.getD i []).length := by
  unfold v1_decay
  by_cases hi : i < tau.length
  · rw [List.getD_eq_getElem _ _ (by simpa using hi), List.getElem_map,
      List.getD_eq_getElem _ _ hi, List.length_map]
  · rw [List.getD_eq_default _ _ (by simpa using le_of_not_lt hi),
      List.getD_eq_default _ _ (le_of_not_lt hi)]

theorem mget_v1_decay {rho : ℚ} {tau : Tau} {i j : ℕ}
    (hi : i < tau.length) (hj : j < (tau.getD i []).length) :
    mget (v1_decay rho tau) i j = max (1/1000000) (mget tau i j * (1 - rho)) := by
  unfold mget v1_decay
  have h1 : (tau.map (fun row => row.map (v1_decay_entry rho))).getD i []
      = (tau.getD i []).map (v1_decay_entry rho) := by
    rw [List.getD_eq_getElem _ _ (by simpa using hi), List.getElem_map,
      List.getD_eq_getElem _ _ hi]
  rw [h1, List.getD_eq_getElem _ _ (by simpa using hj), List.getElem_map]
  have h2 : (tau.getD i [])[j] = (tau.getD i []).getD j 0 :=
    (List.getD_eq_getElem _ _ hj).symm
  rw [h2, v1_decay_entry_eq_max]

/-- Model of Python max(ants_solutions, key=lambda x: x[1]): the first
pair attaining the maximal fitness. -/
def maxBySnd (x : List Team × ℚ) (xs : List (List Team × ℚ)) : List Team × ℚ :=
  xs.foldl (fun b y => if b.2 < y.2 then y else b) x

/-- The (student id, team id) pairs present in a candidate. -/
def pairsOf (ts : List Team) : List (ℕ × ℕ) :=
  ts.flatMap (fun t => t.students.map (fun s => (s.id, t.id)))

/-- The reinforcement stage of ACO.update_pheromones: for each team of the
reinforced candidate and each of its members, add q * fit to
tau[s.id][t.id]. -/
def v1_reinforce (q fit : ℚ) (best : List Team) (tau : Tau) : Tau :=
  best.foldl
    (fun m t => t.students.foldl
      (fun m1 s => mApply m1 s.id t.id (fun w => w + q * fit)) m) tau

/-- Model of ACO.update_pheromones: evaporate and clamp every entry, pick
the best candidate of the iteration, reinforce its pairs; none models
Python's max() raising on an empty sequence. -/
def v1_update_pheromones (cfg : ACOConfig) (tau : Tau) :
    List (List Team × ℚ) → Option Tau
  | [] => none
  | x :: xs =>
    let best := maxBySnd x xs
    some (v1_reinforce cfg.q best.2 best.1 (v1_decay cfg.rho tau))

theorem v1_reinforce_eq_foldl_pairs (q fit : ℚ) (best : List Team) (tau : Tau) :
    v1_reinforce q fit best tau =
      (pairsOf best).foldl (fun m p => mApply m p.1 p.2 (fun w => w + q * fit)) tau := by
  induction best generalizing tau with
  | nil => rfl
  | cons t rest ih =>
    have hstep : v1_reinforce q fit (t :: rest) tau
        = v1_reinforce q fit rest
            (t.students.foldl (fun m1 s => mApply m1 s.id t.id (fun w => w + q * fit)) tau) := rfl
    have hinner : t.students.foldl
          (fun m1 s => mApply m1 s.id t.id (fun w => w + q * fit)) tau
        = (t.students.map (fun s => (s.id, t.id))).foldl
            (fun m1 p => mApply m1 p.1 p.2 (fun w => w + q * fit)) tau := by
      rw [List.foldl_map]
    rw [hstep, ih, hinner]
    unfold pairsOf
    rw [List.flatMap_cons, List.foldl_append]

theorem length_foldl_mApply (x : ℚ) (ps : List (ℕ × ℕ)) (m : Tau) :
    (ps.foldl (fun m1 p => mApply m1 p.1 p.2 (fun w => w + x)) m).length = m.length := by
  induction ps generalizing m with
  | nil => rfl
  | cons a ps ih => rw [List.foldl_cons, ih, length_mApply]

theorem rowlength_foldl_mApply (x : ℚ) (ps : List (ℕ × ℕ)) (m : Tau) (i : ℕ) :
    ((ps.foldl (fun m1 p => mApply m1 p.1 p.2 (fun w => w + x)) m).getD i []).length
      = (m.getD i []).length := by
  induction ps generalizing m with
  | nil => rfl
  | cons a ps ih => rw [List.foldl_cons, ih, rowlength_mApply]

/-- Pointwise effect of folding mApply over a duplicate-free pair list:
present pairs gain x, absent pairs are unchanged. -/
theorem mget_foldl_mApply {x : ℚ} {ps : List (ℕ × ℕ)} {m : Tau} {i j : ℕ}
    (hnd : ps.Nodup) (hi : i < m.length) (hj : j < (m.getD i []).length) :
    mget (ps.foldl (fun m1 p => mApply m1 p.1 p.2 (fun w => w + x)) m) i j =
      if (i, j) ∈ ps then mget m i j + x else mget m i j := by
  induction ps generalizing m with
  | nil => simp
  | cons a ps ih =>
    obtain ⟨a1, a2⟩ := a
    rw [List.foldl_cons]
    have hnd1 : ps.Nodup := (List.nodup_cons.mp hnd).2
    have hi1 : i < (mApply m a1 a2 (fun w => w + x)).length := by
      rw [length_mApply]; exact hi
    have hj1 : j < ((mApply m a1 a2 (fun w => w + x)).getD i []).length := by
      rw [rowlength_mApply]; exact hj
    rw [ih hnd1 hi1 hj1]
    by_cases hpair : (i, j) = (a1, a2)
    · obtain ⟨h1, h2⟩ := Prod.mk.injEq .. ▸ hpair
      subst h1; subst h2
      have hnin : (i, j) ∉ ps := (List.nodup_cons.mp hnd).1
      rw [if_neg hnin, if_pos (List.mem_cons_self _ _), mget_mApply_self hi hj]
    · have hne : a1 ≠ i ∨ a2 ≠ j := by
        by_contra hc
        push_neg at hc
        exact hpair (by rw [hc.1, hc.2])
      rw [mget_mApply_ne hne]
      by_cases hmem : (i, j) ∈ ps
      · rw [if_pos hmem, if_pos (List.mem_cons_of_mem _ hmem)]
      · rw [if_neg hmem, if_neg (by
          intro hc
          rcases List.mem_cons.mp hc with h | h
          · exact hpair h
          · exact hmem h)]

/-- C1 (amended, v1 part): ACO.update_pheromones reinforces from the single
best candidate of the iteration only; every in-matrix pair present in that
candidate ends at its decayed value plus exactly q * best fitness, and the
reinforcement stage leaves every other pair at its decayed value. -/
theorem v1_update_pheromones_spec (cfg : ACOConfig) (tau tau' : Tau)
    (x : List Team × ℚ) (xs : List (List Team × ℚ)) (i j : ℕ)
    (hup : v1_update_pheromones cfg tau (x :: xs) = some tau')
    (hnd : (pairsOf (maxBySnd x xs).1).Nodup)
    (hi : i < tau.length) (hj : j < (tau.getD i []).length) :
    mget tau' i j =
      if (i, j) ∈ pairsOf (maxBySnd x xs).1 then
        max (1/1000000) (mget tau i j * (1 - cfg.rho)) + cfg.q * (maxBySnd x xs).2
      else max (1/1000000) (mget tau i j * (1 - cfg.rho)) := by
  have htau' : tau' =
      v1_reinforce cfg.q (maxBySnd x xs).2 (maxBySnd x xs).1 (v1_decay cfg.rho tau) := by
    have := hup
    unfold v1_update_pheromones at this
    exact (Option.some.injEq .. ▸ this).symm
  subst htau'
  rw [v1_reinforce_eq_foldl_pairs]
  have hi1 : i < (v1_decay cfg.rho tau).length := by
    rw [length_v1_decay]; exact hi
  have hj1 : j < ((v1_decay cfg.rho tau).getD i []).length := by
    rw [rowlength_v1_decay]; exact hj
  rw [mget_foldl_mApply hnd hi1 hj1, mget_v1_decay hi hj]

/-- Witness for C1: one student, one team, one candidate of fitness 2 with
q = 1 and rho = 1/10: the single pair rises from its decayed value 9/10 by
exactly 2. -/
theorem v1_update_pheromones_spec_witness :
    mget [[(29 : ℚ)/10]] 0 0
      = max (1/1000000) (mget [[(1 : ℚ)]] 0 0 * (1 - (1 : ℚ)/10)) + 1 * 2 := by
  have h := v1_update_pheromones_spec ⟨1, 1, 1, 1, 0, 1/10, 1, 1, 1⟩ [[1]] [[29/10]]
    ([⟨0, 0, 1, [⟨0, [], "r", "A"⟩]⟩], 2) [] 0 0
    (by norm_num [v1_update_pheromones, maxBySnd, v1_reinforce, v1_decay,
      v1_decay_entry, mApply, mget])
    (by decide) (by decide) (by decide)
  simpa [maxBySnd, pairsOf] using h

/-- Iterated evaporation stages (no reinforcement in between). -/
def v1_decay_iter (rho : ℚ) : ℕ → Tau → Tau
  | 0, tau => tau
  | Nat.succ n, tau => v1_decay rho (v1_decay_iter rho n tau)

/-- C2 (amended, v1 part): after the evaporation stage of
ACO.update_pheromones every in-matrix weight equals
max(1e-6, old * (1 - rho)); from the first evaporation stage on, every
weight stays at or above the 1e-6 floor across arbitrarily many further
stages with no reinforcement. -/
theorem v1_evaporation_spec (rho : ℚ) (tau : Tau) (i j : ℕ)
    (hi : i < tau.length) (hj : j < (tau.getD i []).length) :
    mget (v1_decay rho tau) i j = max (1/1000000) (mget tau i j * (1 - rho))
    ∧ ∀ n : ℕ, (1/1000000 : ℚ) ≤ mget (v1_decay_iter rho (n + 1) tau) i j := by
  constructor
  · exact mget_v1_decay hi hj
  · intro n
    have hdims : ∀ m : ℕ, (v1_decay_iter rho m tau).length = tau.length ∧
        ((v1_decay_iter rho m tau).getD i []).length = (tau.getD i []).length := by
      intro m
      induction m with
      | zero => exact ⟨rfl, rfl⟩
      | succ m ihm =>
        refine ⟨?_, ?_⟩
        · rw [show v1_decay_iter rho (m + 1) tau
              = v1_decay rho (v1_decay_iter rho m tau) from rfl,
            length_v1_decay, ihm.1]
        · rw [show v1_decay_iter rho (m + 1) tau
              = v1_decay rho (v1_decay_iter rho m tau) from rfl,
            rowlength_v1_decay, ihm.2]
    rw [show v1_decay_iter rho (n + 1) tau
        = v1_decay rho (v1_decay_iter rho n tau) from rfl,
      mget_v1_decay (by rw [(hdims n).1]; exact hi) (by rw [(hdims n).2]; exact hj)]
    exact le_max_left _ _

/-- Witness for C2: a 1x1 matrix holding 1 with rho = 1/10. -/
theorem v1_evaporation_spec_witness :
    mget (v1_decay (1/10) [[1]]) 0 0
      = max (1/1000000) (mget [[(1 : ℚ)]] 0 0 * (1 - 1/10))
    ∧ (1/1000000 : ℚ) ≤ mget (v1_decay_iter (1/10) 1 [[1]]) 0 0 :=
  ⟨(v1_evaporation_spec (1/10) [[1]] 0 0 (by decide) (by decide)).1,
   (v1_evaporation_spec (1/10) [[1]] 0 0 (by decide) (by decide)).2 0⟩

theorem can_add_lt_capacity {t : Team} {s : Student} {cap : ℕ} {unl : String}
    (h : t.can_add s cap unl = true) : t.students.length < t.capacity := by
  unfold Team.can_add at h
  by_cases hc : t.capacity ≤ t.students.length
  · rw [if_pos hc] at h
    exact absurd h (by simp)
  · omega

theorem v1_feasible_subset {teams : List Team} {s : Student} :
    ∀ t ∈ v1_feasible teams s, t ∈ teams := by
  intro t ht
  unfold v1_feasible at ht
  by_cases h0 : teams.filter (fun t => t.can_add s 2 "Dutch") = []
  · rw [if_pos h0] at ht
    exact List.mem_of_mem_filter ht
  · rw [if_neg h0] at ht
    exact List.mem_of_mem_filter ht

theorem v1_feasible_lt_capacity {teams : List Team} {s : Student} :
    ∀ t ∈ v1_feasible teams s, t.students.length < t.capacity := by
  intro t ht
  unfold v1_feasible at ht
  by_cases h0 : teams.filter (fun t => t.can_add s 2 "Dutch") = []
  · rw [if_pos h0] at ht
    simpa using (List.mem_filter.mp ht).2
  · rw [if_neg h0] at ht
    exact can_add_lt_capacity (by simpa using (List.mem_filter.mp ht).2)

theorem v1_feasible_ne_nil {teams : List Team} {s : Student}
    (hfree : ∃ t ∈ teams, t.students.length < t.capacity) :
    v1_feasible teams s ≠ [] := by
  unfold v1_feasible
  obtain ⟨t, ht, hlt⟩ := hfree
  by_cases h0 : teams.filter (fun t => t.can_add s 2 "Dutch") = []
  · rw [if_pos h0]
    exact List.ne_nil_of_mem (List.mem_filter.mpr ⟨ht, by simpa using hlt⟩)
  · rw [if_neg h0]
    exact h0

theorem select_go_mem {r cum : ℚ} {l : List (Team × ℚ)} {t : Team}
    (h : select_go r cum l = some t) : t ∈ l.map Prod.fst := by
  induction l generalizing cum with
  | nil => simp [select_go] at h
  | cons a rest ih =>
    obtain ⟨t0, p0⟩ := a
    unfold select_go at h
    by_cases hle : r ≤ cum + p0
    · rw [if_pos hle] at h
      have ht0 : t0 = t := Option.some.inj h
      subst ht0
      exact List.mem_cons_self _ _
    · rw [if_neg hle] at h
      exact List.mem_cons_of_mem _ (ih h)

theorem addToTeams_map_id (teams : List Team) (chosen : Team) (s : Student) :
    (addToTeams teams chosen s).map Team.id = teams.map Team.id := by
  unfold addToTeams
  rw [List.map_map]
  apply List.map_congr_left
  intro t _
  by_cases h : t.id = chosen.id
  · simp [h, Team.add]
  · simp [h]

theorem length_addToTeams (teams : List Team) (chosen : Team) (s : Student) :
    (addToTeams teams chosen s).length = teams.length := by
  unfold addToTeams
  exact teams.length_map _

theorem mem_addToTeams {teams : List Team} {chosen : Team} {s : Student} {t' : Team}
    (h : t' ∈ addToTeams teams chosen s) :
    ∃ t ∈ teams, t' = if t.id = chosen.id then t.add s else t := by
  obtain ⟨t, ht, heq⟩ := List.mem_map.mp h
  exact ⟨t, ht, heq.symm⟩

theorem eq_of_mem_of_id_eq {teams : List Team} (hnd : (teams.map Team.id).Nodup)
    {t c : Team} (ht : t ∈ teams) (hc : c ∈ teams) (hid : t.id = c.id) : t = c :=
  List.inj_on_of_nodup_map hnd ht hc hid

/-- Total number of placed students across the team list. -/
def sumLens (teams : List Team) : ℕ :=
  (teams.map (fun t => t.students.length)).sum

theorem addToTeams_of_id_not_mem (teams : List Team) (chosen : Team) (s : Student)
    (h : ∀ x ∈ teams, x.id ≠ chosen.id) :
    addToTeams teams chosen s = teams := by
  unfold addToTeams
  have hcongr : ∀ x ∈ teams, (if x.id = chosen.id then x.add s else x) = id x := by
    intro x hx
    rw [if_neg (h x hx)]
    rfl
  rw [List.map_congr_left hcongr, List.map_id]

theorem sumLens_addToTeams {teams : List Team} {chosen : Team} {s : Student}
    (hnd : (teams.map Team.id).Nodup) (hc : chosen ∈ teams) :
    sumLens (addToTeams teams chosen s) = sumLens teams + 1 := by
  induction teams with
  | nil => simp at hc
  | cons t rest ih =>
    have hnd1 : (rest.map Team.id).Nodup := (List.nodup_cons.mp hnd).2
    by_cases hid : t.id = chosen.id
    · have htail : ∀ x ∈ rest, x.id ≠ chosen.id := by
        intro x hx hxid
        exact (List.nodup_cons.mp hnd).1 (hid ▸ hxid ▸ List.mem_map_of_mem Team.id hx)
      unfold addToTeams sumLens
      simp only [List.map_cons, List.sum_cons, if_pos hid]
      have := addToTeams_of_id_not_mem rest chosen s htail
      unfold addToTeams at this
      rw [this]
      simp [Team.add]
      omega
    · have hcrest : chosen ∈ rest := by
        rcases List.mem_cons.mp hc with h | h
        · exact absurd (congrArg Team.id h.symm) hid
        · exact h
      unfold addToTeams sumLens
      simp only [List.map_cons, List.sum_cons, if_neg hid]
      have := ih hnd1 hcrest
      unfold addToTeams sumLens at this
      omega

theorem le_sum_of_forall_le {l : List ℕ} {c : ℕ} (h : ∀ x ∈ l, c ≤ x) :
    l.length * c ≤ l.sum := by
  induction l with
  | nil => simp
  | cons a l ih =>
    have ha := h a (List.mem_cons_self _ _)
    have hl := ih (fun x hx => h x (List.mem_cons_of_mem _ hx))
    simp only [List.length_cons, List.sum_cons]
    calc (l.length + 1) * c = l.length * c + c := by ring
    _ ≤ l.sum + a := by omega
    _ = a + l.sum := by omega

theorem exists_free_team {cfg : ACOConfig} {teams : List Team}
    (hlen : teams.length = cfg.n_teams)
    (hcap : ∀ t ∈ teams, t.capacity = cfg.team_size)
    (hsum : sumLens teams < cfg.n_teams * cfg.team_size) :
    ∃ t ∈ teams, t.students.length < t.capacity := by
  by_contra hno
  push_neg at hno
  have hbig : cfg.n_teams * cfg.team_size ≤ sumLens teams := by
    have : ∀ x ∈ teams.map (fun t => t.students.length), cfg.team_size ≤ x := by
      intro x hx
      obtain ⟨t, ht, hxeq⟩ := List.mem_map.mp hx
      have := hno t ht
      rw [hcap t ht] at this
      omega
    have hl := le_sum_of_forall_le this
    rw [List.length_map, hlen] at hl
    exact hl
  omega

theorem satisfaction_nonneg {s : Student} {project : ℕ} (h : project ∈ s.prefs) :
    0 ≤ s.satisfaction project := by
  unfold Student.satisfaction
  have hrank : s.prefs.indexOf project < s.prefs.length := List.indexOf_lt_length.mpr h
  have hlen : 1 ≤ s.prefs.length := List.length_pos.mpr (List.ne_nil_of_mem h)
  apply div_nonneg
  · have h1 : (s.prefs.indexOf project : ℚ) + 1 ≤ (s.prefs.length : ℚ) := by
      exact_mod_cast hrank
    linarith
  · have h1 : (1 : ℚ) ≤ (s.prefs.length : ℚ) := by exact_mod_cast hlen
    linarith

theorem v1_heuristic_nonneg {cfg : ACOConfig} {s : Student} {t : Team}
    (h : t.project ∈ s.prefs) : 0 ≤ v1_heuristic cfg s t := by
  unfold v1_heuristic
  have h1 := satisfaction_nonneg h
  have h2 : (0 : ℚ) ≤ (((s.belbin :: t.students.map Student.belbin).dedup).length : ℚ)
      / (cfg.team_size : ℚ) := by
    apply div_nonneg <;> positivity
  positivity

theorem v1_weight_nonneg {cfg : ACOConfig} {tau : Tau} {s : Student} {t : Team}
    (htau : 0 ≤ mget tau s.id t.id) (h : t.project ∈ s.prefs) :
    0 ≤ v1_weight cfg tau s t := by
  unfold v1_weight
  exact mul_nonneg (pow_nonneg htau _) (pow_nonneg (v1_heuristic_nonneg h) _)

theorem randDraw_fst_mem_range {g : List ℚ} (hg : ∀ u ∈ g, 0 ≤ u ∧ u < 1) :
    0 ≤ (randDraw g).1 ∧ (randDraw g).1 < 1 := by
  rcases g with _ | ⟨u, rest⟩
  · exact ⟨le_refl 0, by norm_num [randDraw]⟩
  · exact hg u (List.mem_cons_self _ _)

theorem randDraw_snd_subset {g : List ℚ} : ∀ u ∈ (randDraw g).2, u ∈ g := by
  rcases g with _ | ⟨u, rest⟩
  · intro v hv
    simp [randDraw] at hv
  · intro v hv
    exact List.mem_cons_of_mem _ hv

/-- Characterization of a successful placement: the new team list appends
the student to some feasible team, and one random draw is consumed. -/
theorem v1_place_some {cfg : ACOConfig} {tau : Tau} {teams : List Team} {s : Student}
    {g : List ℚ} {teams' : List Team} {g' : List ℚ}
    (h : v1_place cfg tau teams s g = some (teams', g')) :
    (∃ chosen ∈ v1_feasible teams s, teams' = addToTeams teams chosen s)
    ∧ g' = (randDraw g).2 := by
  unfold v1_place at h
  by_cases hraise : (v1_feasible teams s).any (fun t => v1_weight_raises cfg tau s t) = true
  case pos =>
    rw [if_pos hraise] at h
    exact absurd h (by simp)
  case neg =>
  rw [if_neg hraise] at h
  by_cases htot : (List.map (fun t => v1_weight cfg tau s t) (v1_feasible teams s)).sum = 0
  · rw [if_pos htot] at h
    by_cases hne : v1_feasible teams s = []
    · rw [if_pos hne] at h
      exact absurd h (by simp)
    · rw [if_neg hne] at h
      have hinj := Option.some.inj h
      have hlen : 0 < (v1_feasible teams s).length := List.length_pos.mpr hne
      have hidx : pickIdx (randDraw g).1 (v1_feasible teams s).length
          < (v1_feasible teams s).length := by
        unfold pickIdx
        have := Nat.min_le_right (Int.toNat ⌊(randDraw g).1 * ((v1_feasible teams s).length : ℚ)⌋)
          ((v1_feasible teams s).length - 1)
        omega
      refine ⟨⟨(v1_feasible teams s).getD
          (pickIdx (randDraw g).1 (v1_feasible teams s).length) default, ?_, ?_⟩, ?_⟩
      · rw [List.getD_eq_getElem _ _ hidx]
        exact List.getElem_mem hidx
      · exact (congrArg Prod.fst hinj).symm
      · exact (congrArg Prod.snd hinj).symm
  · rw [if_neg htot] at h
    rcases hsel : select_go ((randDraw g).1 *
        (List.map (fun t => v1_weight cfg tau s t) (v1_feasible teams s)).sum) 0
        ((v1_feasible teams s).zip
          (List.map (fun t => v1_weight cfg tau s t) (v1_feasible teams s))) with _ | chosen
    · rw [hsel] at h
      exact absurd h (by simp)
    · rw [hsel] at h
      have hinj := Option.some.inj h
      have hmem : chosen ∈ v1_feasible teams s := by
        have := select_go_mem hsel
        rw [List.map_fst_zip _ _ (by rw [List.length_map])] at this
        exact this
      exact ⟨⟨chosen, hmem, (congrArg Prod.fst hinj).symm⟩, (congrArg Prod.snd hinj).symm⟩

/-- A placement step succeeds whenever some team still has free capacity
(given non-negative pheromone entries, draws in [0,1) and team projects
inside the student's preference list). -/
theorem v1_place_isSome {cfg : ACOConfig} {tau : Tau} {teams : List Team} {s : Student}
    {g : List ℚ}
    (htau : ∀ i j, 0 ≤ mget tau i j)
    (hproj : ∀ t ∈ teams, t.project ∈ s.prefs)
    (hnr : ∀ t ∈ teams, v1_weight_raises cfg tau s t = false)
    (hfree : ∃ t ∈ teams, t.students.length < t.capacity)
    (hg : ∀ u ∈ g, 0 ≤ u ∧ u < 1) :
    (v1_place cfg tau teams s g).isSome = true := by
  unfold v1_place
  have hne : v1_feasible teams s ≠ [] := v1_feasible_ne_nil hfree
  have hraise : ((v1_feasible teams s).any (fun t => v1_weight_raises cfg tau s t)) = false := by
    rw [List.any_eq_false]
    intro t ht
    simp [hnr t (v1_feasible_subset t ht)]
  simp only [hraise, Bool.false_eq_true, if_false]
  have hnonneg : ∀ p ∈ (v1_feasible teams s).map (fun t => v1_weight cfg tau s t), 0 ≤ p := by
    intro p hp
    obtain ⟨t, ht, hpe⟩ := List.mem_map.mp hp
    rw [← hpe]
    exact v1_weight_nonneg (htau s.id t.id) (hproj t (v1_feasible_subset t ht))
  by_cases htot : ((v1_feasible teams s).map (fun t => v1_weight cfg tau s t)).sum = 0
  · rw [if_pos htot, if_neg hne]
    rfl
  · rw [if_neg htot]
    have hpos : 0 < ((v1_feasible teams s).map (fun t => v1_weight cfg tau s t)).sum :=
      lt_of_le_of_ne (List.sum_nonneg hnonneg) (Ne.symm htot)
    obtain ⟨hu0, hu1⟩ := randDraw_fst_mem_range hg
    have hsel : (select_go ((randDraw g).1 *
        ((v1_feasible teams s).map (fun t => v1_weight cfg tau s t)).sum) 0
        ((v1_feasible teams s).zip
          ((v1_feasible teams s).map (fun t => v1_weight cfg tau s t)))).isSome = true := by
      apply select_go_isSome
      · intro hzip
        have hlz := congrArg List.length hzip
        rw [List.length_zip, List.length_map, min_self] at hlz
        exact hne (List.length_eq_zero.mp hlz)
      · have hsnd : ((v1_feasible teams s).zip
            ((v1_feasible teams s).map (fun t => v1_weight cfg tau s t))).map Prod.snd
            = (v1_feasible teams s).map (fun t => v1_weight cfg tau s t) :=
          List.map_snd_zip _ _ (by rw [List.length_map])
        rw [hsnd, zero_add]
        nlinarith [hpos, hu0, hu1]
    obtain ⟨chosen, hch⟩ := Option.isSome_iff_exists.mp hsel
    rw [hch]
    rfl

theorem Team_add_capacity (t : Team) (s : Student) : (t.add s).capacity = t.capacity := rfl

theorem Team_add_project (t : Team) (s : Student) : (t.add s).project = t.project := rfl

theorem Team_add_id (t : Team) (s : Student) : (t.add s).id = t.id := rfl

theorem v1_weight_raises_add (cfg : ACOConfig) (tau : Tau) (s' : Student)
    (t : Team) (x : Student) :
    v1_weight_raises cfg tau s' (t.add x) = v1_weight_raises cfg tau s' t := rfl

theorem base_teams_map_id (cfg : ACOConfig) :
    (base_teams cfg).map Team.id = List.range cfg.n_teams := by
  unfold base_teams
  rw [List.map_map]
  have : ∀ j ∈ List.range cfg.n_teams,
      (Team.id ∘ fun j => Team.mk j (j / cfg.teams_per_project) cfg.team_size []) j = id j := by
    intro j _
    rfl
  rw [List.map_congr_left this, List.map_id]

theorem base_teams_capacity (cfg : ACOConfig) :
    ∀ t ∈ base_teams cfg, t.capacity = cfg.team_size := by
  intro t ht
  obtain ⟨j, _, hje⟩ := List.mem_map.mp ht
  rw [← hje]

theorem base_teams_students (cfg : ACOConfig) :
    ∀ t ∈ base_teams cfg, t.students = [] := by
  intro t ht
  obtain ⟨j, _, hje⟩ := List.mem_map.mp ht
  rw [← hje]

theorem base_teams_length (cfg : ACOConfig) :
    (base_teams cfg).length = cfg.n_teams := by
  unfold base_teams
  rw [List.length_map, List.length_range]

theorem base_teams_project (cfg : ACOConfig) (htpp : 0 < cfg.teams_per_project) :
    ∀ t ∈ base_teams cfg, t.project < cfg.n_projects := by
  intro t ht
  obtain ⟨j, hj, hje⟩ := List.mem_map.mp ht
  rw [← hje]
  have hjlt : j < cfg.n_projects * cfg.teams_per_project := by
    simpa [ACOConfig.n_teams] using List.mem_range.mp hj
  exact Nat.div_lt_of_lt_mul (by rw [Nat.mul_comm]; exact hjlt)

theorem base_teams_id (cfg : ACOConfig) : ∀ t ∈ base_teams cfg, t.id < cfg.n_teams := by
  intro t ht
  obtain ⟨j, hj, hje⟩ := List.mem_map.mp ht
  rw [← hje]
  exact List.mem_range.mp hj

/-- Invariant preservation along the per-student loop: team ids are
unchanged and no team ever exceeds its capacity. -/
theorem v1_construct_go_inv {cfg : ACOConfig} {tau : Tau} :
    ∀ {order : List Student} {teams : List Team} {g : List ℚ}
      {teams' : List Team} {g' : List ℚ},
    v1_construct_go cfg tau order teams g = some (teams', g') →
    (teams.map Team.id).Nodup →
    (∀ t ∈ teams, t.capacity = cfg.team_size) →
    (∀ t ∈ teams, t.students.length ≤ t.capacity) →
    ∀ t ∈ teams', t.students.length ≤ t.capacity ∧ t.capacity = cfg.team_size := by
  intro order
  induction order with
  | nil =>
    intro teams g teams' g' h hnd hcap hlen
    have heq := Option.some.inj h
    have h1 : teams = teams' := congrArg Prod.fst heq
    subst h1
    intro t ht
    exact ⟨hlen t ht, hcap t ht⟩
  | cons s rest ih =>
    intro teams g teams' g' h hnd hcap hlen
    unfold v1_construct_go at h
    rcases hplace : v1_place cfg tau teams s g with _ | ⟨teams1, g1⟩
    · rw [hplace] at h
      exact absurd h (by simp)
    · rw [hplace] at h
      obtain ⟨⟨chosen, hchf, hteq⟩, -⟩ := v1_place_some hplace
      have hchlt : chosen.students.length < chosen.capacity :=
        v1_feasible_lt_capacity chosen hchf
      have hchmem : chosen ∈ teams := v1_feasible_subset chosen hchf
      have hnd1 : (teams1.map Team.id).Nodup := by
        rw [hteq, addToTeams_map_id]
        exact hnd
      have hcap1 : ∀ t ∈ teams1, t.capacity = cfg.team_size := by
        intro t' ht'
        rw [hteq] at ht'
        obtain ⟨t, ht, hte⟩ := mem_addToTeams ht'
        by_cases hid : t.id = chosen.id
        · rw [hte, if_pos hid, Team_add_capacity]
          exact hcap t ht
        · rw [hte, if_neg hid]
          exact hcap t ht
      have hlen1 : ∀ t ∈ teams1, t.students.length ≤ t.capacity := by
        intro t' ht'
        rw [hteq] at ht'
        obtain ⟨t, ht, hte⟩ := mem_addToTeams ht'
        by_cases hid : t.id = chosen.id
        · have heq2 : t = chosen := eq_of_mem_of_id_eq hnd ht hchmem hid
          subst heq2
          rw [hte, if_pos hid, Team_add_capacity]
          have hadd : (t.add s).students.length = t.students.length + 1 := by
            simp [Team.add]
          omega
        · rw [hte, if_neg hid]
          exact hlen t ht
      exact ih h hnd1 hcap1 hlen1

/-- C7 (amended, capacity part): every candidate produced by
ACO.construct_solution has no team above its capacity, which equals the
configured team_size. -/
theorem v1_construct_capacity_spec {cfg : ACOConfig} {tau : Tau}
    {students : List Student} {g : List ℚ} {teams : List Team} {f : ℚ} {g' : List ℚ}
    (h : v1_construct cfg tau students g = some ((teams, f), g')) :
    ∀ t ∈ teams, t.students.length ≤ cfg.team_size := by
  unfold v1_construct at h
  rcases hgo : v1_construct_go cfg tau (shuffleL students g).1 (base_teams cfg)
      (shuffleL students g).2 with _ | ⟨teams0, g2⟩
  · rw [hgo] at h
    exact absurd h (by simp)
  · rw [hgo] at h
    have h2 : (if cfg.n_teams = 0 then none
        else some ((teams0, (teams0.map Team.fitness).sum / (cfg.n_teams : ℚ)), g2))
        = some ((teams, f), g') := h
    by_cases hn0 : cfg.n_teams = 0
    case pos =>
      rw [if_pos hn0] at h2
      exact absurd h2 (by simp)
    case neg =>
    rw [if_neg hn0] at h2
    have hteams : teams0 = teams := by
      have := Option.some.inj h2
      exact congrArg Prod.fst (congrArg Prod.fst this)
    subst hteams
    have hinv := v1_construct_go_inv hgo
      (by rw [base_teams_map_id]; exact List.nodup_range cfg.n_teams)
      (base_teams_capacity cfg)
      (by
        intro t ht
        rw [base_teams_students cfg t ht]
        simp)
    intro t ht
    obtain ⟨h1, h2⟩ := hinv t ht
    rw [← h2]
    exact h1

theorem length_shuffleGo : ∀ (k : ℕ) (xs : List Student) (g : List ℚ),
    (shuffleGo k xs g).1.length = xs.length := by
  intro k
  induction k with
  | zero => intro xs g; rfl
  | succ k ih =>
    intro xs g
    match xs with
    | [] => rfl
    | x0 :: xs0 =>
      simp only [shuffleGo, List.length_cons]
      rw [ih]
      have hidx : pickIdx ((randDraw g).1) (x0 :: xs0).length < (x0 :: xs0).length := by
        unfold pickIdx
        have := Nat.min_le_right
          (Int.toNat ⌊(randDraw g).1 * (((x0 :: xs0).length : ℕ) : ℚ)⌋)
          ((x0 :: xs0).length - 1)
        simp only [List.length_cons] at this ⊢
        omega
      rw [List.length_append, List.length_take, List.length_drop]
      simp only [List.length_cons] at hidx ⊢
      omega

theorem shuffleGo_snd_subset : ∀ (k : ℕ) (xs : List Student) (g : List ℚ),
    ∀ u ∈ (shuffleGo k xs g).2, u ∈ g := by
  intro k
  induction k with
  | zero => intro xs g u hu; exact hu
  | succ k ih =>
    intro xs g u hu
    match xs with
    | [] => exact hu
    | x0 :: xs0 =>
      simp only [shuffleGo] at hu
      exact randDraw_snd_subset u (ih _ _ u hu)

theorem sumLens_base_teams (cfg : ACOConfig) : sumLens (base_teams cfg) = 0 := by
  unfold sumLens
  apply List.sum_eq_zero
  intro x hx
  obtain ⟨t, ht, hxe⟩ := List.mem_map.mp hx
  rw [← hxe, base_teams_students cfg t ht]
  rfl

/-- Totality of the per-student loop while capacity remains. -/
theorem v1_construct_go_total {cfg : ACOConfig} {tau : Tau}
    (htau : ∀ i j, 0 ≤ mget tau i j) :
    ∀ (order : List Student) (teams : List Team) (g : List ℚ),
    (∀ t ∈ teams, ∀ s ∈ order, t.project ∈ s.prefs) →
    (∀ s ∈ order, ∀ t ∈ teams, v1_weight_raises cfg tau s t = false) →
    (∀ u ∈ g, 0 ≤ u ∧ u < 1) →
    (teams.map Team.id).Nodup →
    teams.length = cfg.n_teams →
    (∀ t ∈ teams, t.capacity = cfg.team_size) →
    sumLens teams + order.length ≤ cfg.n_teams * cfg.team_size →
    (v1_construct_go cfg tau order teams g).isSome = true := by
  intro order
  induction order with
  | nil =>
    intro teams g _ _ _ _ _ _ _
    rfl
  | cons s rest ih =>
    intro teams g hproj hnr hg hnd hlen hcap hsum
    have hfree : ∃ t ∈ teams, t.students.length < t.capacity := by
      apply exists_free_team hlen hcap
      simp only [List.length_cons] at hsum
      omega
    have hpl := @v1_place_isSome cfg tau teams s g htau
      (fun t ht => hproj t ht s (List.mem_cons_self _ _))
      (fun t ht => hnr s (List.mem_cons_self _ _) t ht) hfree hg
    obtain ⟨⟨teams1, g1⟩, hplace⟩ := Option.isSome_iff_exists.mp hpl
    unfold v1_construct_go
    rw [hplace]
    obtain ⟨⟨chosen, hchf, hteq⟩, hge⟩ := v1_place_some hplace
    have hchmem : chosen ∈ teams := v1_feasible_subset chosen hchf
    apply ih teams1 g1
    · intro t' ht' s' hs'
      rw [hteq] at ht'
      obtain ⟨t, ht, hte⟩ := mem_addToTeams ht'
      have hpr : t'.project = t.project := by
        by_cases hid : t.id = chosen.id
        · rw [hte, if_pos hid, Team_add_project]
        · rw [hte, if_neg hid]
      rw [hpr]
      exact hproj t ht s' (List.mem_cons_of_mem _ hs')
    · intro s' hs' t' ht'
      rw [hteq] at ht'
      obtain ⟨t, ht, hte⟩ := mem_addToTeams ht'
      by_cases hid : t.id = chosen.id
      · rw [hte, if_pos hid, v1_weight_raises_add]
        exact hnr s' (List.mem_cons_of_mem _ hs') t ht
      · rw [hte, if_neg hid]
        exact hnr s' (List.mem_cons_of_mem _ hs') t ht
    · intro u hu
      rw [hge] at hu
      exact hg u (randDraw_snd_subset u hu)
    · rw [hteq, addToTeams_map_id]
      exact hnd
    · rw [hteq, length_addToTeams]
      exact hlen
    · intro t' ht'
      rw [hteq] at ht'
      obtain ⟨t, ht, hte⟩ := mem_addToTeams ht'
      by_cases hid : t.id = chosen.id
      · rw [hte, if_pos hid, Team_add_capacity]
        exact hcap t ht
      · rw [hte, if_neg hid]
        exact hcap t ht
    · rw [hteq, sumLens_addToTeams hnd hchmem]
      simp only [List.length_cons] at hsum
      omega

/-- C3 (amended, v1 part): construction degrades gracefully by relaxing
the composition cap (built into v1_feasible) and by falling back to a
uniform random choice when the selection weights sum to zero, and it
succeeds whenever the population fits into the total capacity
n_teams * team_size, the pheromone matrix has a row for every student
covering every team index, every preference list contains all projects
and does not have length one, and the configuration has at least one
project and one team per project.  Outside these conditions construction
raises instead of leaving individuals unplaced: random.choice on an empty
sequence when no team has free capacity (see the counterexample), and
IndexError / ValueError / ZeroDivisionError inside the probabilities loop
for an undersized matrix, a missing project or a singleton preference
list (all modelled as none). -/
theorem v1_construct_total (cfg : ACOConfig) (tau : Tau) (students : List Student)
    (g : List ℚ)
    (htau : ∀ i j, 0 ≤ mget tau i j)
    (hproj : ∀ s ∈ students, ∀ p, p < cfg.n_projects → p ∈ s.prefs)
    (hdim : ∀ s ∈ students, s.id < tau.length ∧ cfg.n_teams ≤ (tau.getD s.id []).length)
    (hpl : ∀ s ∈ students, s.prefs.length ≠ 1)
    (hnp : 0 < cfg.n_projects)
    (htpp : 0 < cfg.teams_per_project)
    (hg : ∀ u ∈ g, 0 ≤ u ∧ u < 1)
    (hcount : students.length ≤ cfg.n_teams * cfg.team_size) :
    (v1_construct cfg tau students g).isSome = true := by
  unfold v1_construct
  have hnt : cfg.n_teams ≠ 0 := by
    unfold ACOConfig.n_teams
    exact Nat.mul_ne_zero (by omega) (by omega)
  have hgo := v1_construct_go_total htau (shuffleL students g).1 (base_teams cfg)
    (shuffleL students g).2
    (by
      intro t ht s hs
      exact hproj s (mem_shuffleGo hs) t.project (base_teams_project cfg htpp t ht))
    (by
      intro s hs t ht
      have hsmem := mem_shuffleGo hs
      have h1 : s.id < tau.length := (hdim s hsmem).1
      have h2 : t.id < (tau.getD s.id []).length := by
        have hid : t.id < cfg.n_teams := base_teams_id cfg t ht
        have := (hdim s hsmem).2
        omega
      have h3 : t.project ∈ s.prefs :=
        hproj s hsmem t.project (base_teams_project cfg htpp t ht)
      have h4 : s.prefs.length ≠ 1 := hpl s hsmem
      have h5 : cfg.team_size ≠ 0 := by
        intro h50
        have hpos : 0 < students.length :=
          List.length_pos.mpr (List.ne_nil_of_mem hsmem)
        rw [h50, Nat.mul_zero] at hcount
        omega
      simp only [v1_weight_raises, Bool.or_eq_false_iff, decide_eq_false_iff_not,
        not_le, not_not]
      exact ⟨⟨⟨⟨h1, h2⟩, h3⟩, h4⟩, h5⟩)
    (by
      intro u hu
      exact hg u (shuffleGo_snd_subset _ _ _ u hu))
    (by rw [base_teams_map_id]; exact List.nodup_range cfg.n_teams)
    (base_teams_length cfg)
    (base_teams_capacity cfg)
    (by
      rw [sumLens_base_teams]
      have := length_shuffleGo students.length students g
      unfold shuffleL
      rw [this]
      omega)
  obtain ⟨⟨teams, g2⟩, hsome⟩ := Option.isSome_iff_exists.mp hgo
  rw [hsome]
  have hred : (if cfg.n_teams = 0 then none
      else some ((teams, (teams.map Team.fitness).sum / (cfg.n_teams : ℚ)), g2)).isSome
      = true := by
    rw [if_neg hnt]
    rfl
  exact hred

theorem str_A_ne_Dutch : (("A" : String) = "Dutch") = False := by simp

theorem team_cons_eq_nil_false (a : Team) (l : List Team) : ((a :: l) = []) = False := by
  simp

/-- Witness for C3: a single student with preference list [0, 1] fits
into one of two teams of capacity 1. -/
theorem v1_construct_total_witness :
    (v1_construct ⟨2, 1, 1, 1, 0, 1/10, 1, 1, 1⟩ [[1, 1]]
      [⟨0, [0, 1], "r", "A"⟩] []).isSome = true := by
  apply v1_construct_total
  · intro i j
    unfold mget
    rcases i with _ | i
    · rcases j with _ | j
      · norm_num
      · rcases j with _ | j <;> norm_num
    · rcases j with _ | j <;> norm_num
  · intro s hs p hp
    simp only [List.mem_singleton] at hs
    subst hs
    have hp1 : p < 2 := hp
    interval_cases p <;> simp
  · intro s hs
    simp only [List.mem_singleton] at hs
    subst hs
    refine ⟨by norm_num, ?_⟩
    show (2 : ℕ) * 1 ≤ 2
    norm_num
  · intro s hs
    simp only [List.mem_singleton] at hs
    subst hs
    norm_num
  · norm_num
  · norm_num
  · intro u hu
    simp at hu
  · norm_num [ACOConfig.n_teams]

/-- Counterexample for C3: three students with well-formed two-project
preference lists and two teams of capacity 1 — the third placement finds
no team with free capacity and construction raises (random.choice on an
empty list) instead of leaving the student unplaced.  The first two
placements complete normally, so the empty-feasible path is genuinely
reached. -/
theorem v1_construct_raises_counterexample :
    v1_construct ⟨2, 1, 1, 1, 0, 1/10, 1, 1, 1⟩ [[1, 1], [1, 1], [1, 1]]
      [⟨0, [0, 1], "r", "A"⟩, ⟨1, [0, 1], "r", "A"⟩, ⟨2, [0, 1], "r", "A"⟩] []
      = none := by
  norm_num [v1_construct, shuffleL, shuffleGo, randDraw, pickIdx, base_teams,
    ACOConfig.n_teams, v1_construct_go, v1_place, v1_feasible, Team.can_add,
    v1_weight, v1_weight_raises, v1_heuristic, mget, addToTeams, select_go,
    Team.add, List.range_succ, Student.satisfaction, str_A_ne_Dutch,
    team_cons_eq_nil_false]

/-- Scenario check: no team holds two members sharing an attribute value
other than the unrestricted value "X". -/
def no_shared_non_X (teams : List Team) : Bool :=
  teams.all (fun t => t.students.all (fun a =>
    a.nationality = "X" ||
      decide ((t.students.filter (fun b => b.nationality = a.nationality)).length ≤ 1)))

/-- Witness for C7: the constructed two-team candidate stays within the
capacity bound. -/
theorem v1_construct_capacity_spec_witness :
    (⟨0, 0, 1, [⟨0, [0, 1], "r", "A"⟩]⟩ : Team).students.length ≤ 1 := by
  have hEval : v1_construct ⟨2, 1, 1, 1, 0, 1/10, 1, 1, 1⟩ [[1, 1]]
      [⟨0, [0, 1], "r", "A"⟩] []
      = some (([⟨0, 0, 1, [⟨0, [0, 1], "r", "A"⟩]⟩, ⟨1, 1, 1, []⟩], 1/2), []) := by
    norm_num [v1_construct, shuffleL, shuffleGo, randDraw, pickIdx, base_teams,
      ACOConfig.n_teams, v1_construct_go, v1_place, v1_feasible, Team.can_add,
      v1_weight, v1_weight_raises, v1_heuristic, mget, addToTeams, select_go,
      Team.add, List.range_succ, Student.satisfaction, Team.fitness,
      Team.satisfaction_score, Team.belbin_diversity, str_A_ne_Dutch,
      team_cons_eq_nil_false]
  exact v1_construct_capacity_spec hEval ⟨0, 0, 1, [⟨0, [0, 1], "r", "A"⟩]⟩
    (by simp)

set_option maxHeartbeats 2000000 in
/-- Counterexample for C7: in the scenario configuration (2 projects, 2
teams per project, capacity 3) with 12 students all sharing the non-"X"
nationality "A", the construction succeeds yet produces teams holding
several members with the same non-"X" attribute value: construct_solution
applies can_add with its hardwired defaults (cap 2, unrestricted "Dutch"),
and waives the cap entirely once no team passes it. -/
theorem v1_construct_composition_counterexample :
    (v1_construct ⟨2, 2, 3, 1, 0, 1/10, 1, 1, 1⟩
        [[1, 1, 1, 1], [1, 1, 1, 1], [1, 1, 1, 1], [1, 1, 1, 1], [1, 1, 1, 1], [1, 1, 1, 1], [1, 1, 1, 1], [1, 1, 1, 1], [1, 1, 1, 1], [1, 1, 1, 1], [1, 1, 1, 1], [1, 1, 1, 1]]
        [⟨0, [0, 1], "r", "A"⟩, ⟨1, [0, 1], "r", "A"⟩, ⟨2, [0, 1], "r", "A"⟩, ⟨3, [0, 1], "r", "A"⟩, ⟨4, [0, 1], "r", "A"⟩, ⟨5, [0, 1], "r", "A"⟩, ⟨6, [0, 1], "r", "A"⟩, ⟨7, [0, 1], "r", "A"⟩, ⟨8, [0, 1], "r", "A"⟩, ⟨9, [0, 1], "r", "A"⟩, ⟨10, [0, 1], "r", "A"⟩, ⟨11, [0, 1], "r", "A"⟩]
        []).map (fun r => no_shared_non_X r.1.1) = some false := by
  have hshuf1 : (shuffleL ([⟨0, [0, 1], "r", "A"⟩, ⟨1, [0, 1], "r", "A"⟩, ⟨2, [0, 1], "r", "A"⟩, ⟨3, [0, 1], "r", "A"⟩, ⟨4, [0, 1], "r", "A"⟩, ⟨5, [0, 1], "r", "A"⟩, ⟨6, [0, 1], "r", "A"⟩, ⟨7, [0, 1], "r", "A"⟩, ⟨8, [0, 1], "r", "A"⟩, ⟨9, [0, 1], "r", "A"⟩, ⟨10, [0, 1], "r", "A"⟩, ⟨11, [0, 1], "r", "A"⟩] : List Student) []).1
      = [⟨0, [0, 1], "r", "A"⟩, ⟨1, [0, 1], "r", "A"⟩, ⟨2, [0, 1], "r", "A"⟩, ⟨3, [0, 1], "r", "A"⟩, ⟨4, [0, 1], "r", "A"⟩, ⟨5, [0, 1], "r", "A"⟩, ⟨6, [0, 1], "r", "A"⟩, ⟨7, [0, 1], "r", "A"⟩, ⟨8, [0, 1], "r", "A"⟩, ⟨9, [0, 1], "r", "A"⟩, ⟨10, [0, 1], "r", "A"⟩, ⟨11, [0, 1], "r", "A"⟩] := by
    norm_num [shuffleL, shuffleGo, randDraw, pickIdx]
  have hshuf2 : (shuffleL ([⟨0, [0, 1], "r", "A"⟩, ⟨1, [0, 1], "r", "A"⟩, ⟨2, [0, 1], "r", "A"⟩, ⟨3, [0, 1], "r", "A"⟩, ⟨4, [0, 1], "r", "A"⟩, ⟨5, [0, 1], "r", "A"⟩, ⟨6, [0, 1], "r", "A"⟩, ⟨7, [0, 1], "r", "A"⟩, ⟨8, [0, 1], "r", "A"⟩, ⟨9, [0, 1], "r", "A"⟩, ⟨10, [0, 1], "r", "A"⟩, ⟨11, [0, 1], "r", "A"⟩] : List Student) []).2 = [] := by
    norm_num [shuffleL, shuffleGo, randDraw, pickIdx]
  have hbase : base_teams ⟨2, 2, 3, 1, 0, 1/10, 1, 1, 1⟩ = [⟨0, 0, 3, []⟩, ⟨1, 0, 3, []⟩, ⟨2, 1, 3, []⟩, ⟨3, 1, 3, []⟩] := by
    norm_num [base_teams, ACOConfig.n_teams, List.range_succ]
  have hf0 : v1_feasible [⟨0, 0, 3, []⟩, ⟨1, 0, 3, []⟩, ⟨2, 1, 3, []⟩, ⟨3, 1, 3, []⟩] ⟨0, [0, 1], "r", "A"⟩
      = [⟨0, 0, 3, []⟩, ⟨1, 0, 3, []⟩, ⟨2, 1, 3, []⟩, ⟨3, 1, 3, []⟩] := by
    simp [v1_feasible, Team.can_add]
  have h0 : v1_place ⟨2, 2, 3, 1, 0, 1/10, 1, 1, 1⟩ [[1, 1, 1, 1], [1, 1, 1, 1], [1, 1, 1, 1], [1, 1, 1, 1], [1, 1, 1, 1], [1, 1, 1, 1], [1, 1, 1, 1], [1, 1, 1, 1], [1, 1, 1, 1], [1, 1, 1, 1], [1, 1, 1, 1], [1, 1, 1, 1]]
      [⟨0, 0, 3, []⟩, ⟨1, 0, 3, []⟩, ⟨2, 1, 3, []⟩, ⟨3, 1, 3, []⟩] ⟨0, [0, 1], "r", "A"⟩ []
      = some ([⟨0, 0, 3, [⟨0, [0, 1], "r", "A"⟩]⟩, ⟨1, 0, 3, []⟩, ⟨2, 1, 3, []⟩, ⟨3, 1, 3, []⟩], []) := by
    norm_num [v1_place, hf0, v1_weight, v1_weight_raises, v1_heuristic,
      mget, addToTeams, select_go, Team.add, randDraw, pickIdx,
      str_A_ne_Dutch, team_cons_eq_nil_false]
  have hf1 : v1_feasible [⟨0, 0, 3, [⟨0, [0, 1], "r", "A"⟩]⟩, ⟨1, 0, 3, []⟩, ⟨2, 1, 3, []⟩, ⟨3, 1, 3, []⟩] ⟨1, [0, 1], "r", "A"⟩
      = [⟨0, 0, 3, [⟨0, [0, 1], "r", "A"⟩]⟩, ⟨1, 0, 3, []⟩, ⟨2, 1, 3, []⟩, ⟨3, 1, 3, []⟩] := by
    simp [v1_feasible, Team.can_add]
  have h1 : v1_place ⟨2, 2, 3, 1, 0, 1/10, 1, 1, 1⟩ [[1, 1, 1, 1], [1, 1, 1, 1], [1, 1, 1, 1], [1, 1, 1, 1], [1, 1, 1, 1], [1, 1, 1, 1], [1, 1, 1, 1], [1, 1, 1, 1], [1, 1, 1, 1], [1, 1, 1, 1], [1, 1, 1, 1], [1, 1, 1, 1]]
      [⟨0, 0, 3, [⟨0, [0, 1], "r", "A"⟩]⟩, ⟨1, 0, 3, []⟩, ⟨2, 1, 3, []⟩, ⟨3, 1, 3, []⟩] ⟨1, [0, 1], "r", "A"⟩ []
      = some ([⟨0, 0, 3, [⟨0, [0, 1], "r", "A"⟩, ⟨1, [0, 1], "r", "A"⟩]⟩, ⟨1, 0, 3, []⟩, ⟨2, 1, 3, []⟩, ⟨3, 1, 3, []⟩], []) := by
    norm_num [v1_place, hf1, v1_weight, v1_weight_raises, v1_heuristic,
      mget, addToTeams, select_go, Team.add, randDraw, pickIdx,
      str_A_ne_Dutch, team_cons_eq_nil_false]
  have hf2 : v1_feasible [⟨0, 0, 3, [⟨0, [0, 1], "r", "A"⟩, ⟨1, [0, 1], "r", "A"⟩]⟩, ⟨1, 0, 3, []⟩, ⟨2, 1, 3, []⟩, ⟨3, 1, 3, []⟩] ⟨2, [0, 1], "r", "A"⟩
      = [⟨1, 0, 3, []⟩, ⟨2, 1, 3, []⟩, ⟨3, 1, 3, []⟩] := by
    simp [v1_feasible, Team.can_add]
  have h2 : v1_place ⟨2, 2, 3, 1, 0, 1/10, 1, 1, 1⟩ [[1, 1, 1, 1], [1, 1, 1, 1], [1, 1, 1, 1], [1, 1, 1, 1], [1, 1, 1, 1], [1, 1, 1, 1], [1, 1, 1, 1], [1, 1, 1, 1], [1, 1, 1, 1], [1, 1, 1, 1], [1, 1, 1, 1], [1, 1, 1, 1]]
      [⟨0, 0, 3, [⟨0, [0, 1], "r", "A"⟩, ⟨1, [0, 1], "r", "A"⟩]⟩, ⟨1, 0, 3, []⟩, ⟨2, 1, 3, []⟩, ⟨3, 1, 3, []⟩] ⟨2, [0, 1], "r", "A"⟩ []
      = some ([⟨0, 0, 3, [⟨0, [0, 1], "r", "A"⟩, ⟨1, [0, 1], "r", "A"⟩]⟩, ⟨1, 0, 3, [⟨2, [0, 1], "r", "A"⟩]⟩, ⟨2, 1, 3, []⟩, ⟨3, 1, 3, []⟩], []) := by
    norm_num [v1_place, hf2, v1_weight, v1_weight_raises, v1_heuristic,
      mget, addToTeams, select_go, Team.add, randDraw, pickIdx,
      str_A_ne_Dutch, team_cons_eq_nil_false]
  have hf3 : v1_feasible [⟨0, 0, 3, [⟨0, [0, 1], "r", "A"⟩, ⟨1, [0, 1], "r", "A"⟩]⟩, ⟨1, 0, 3, [⟨2, [0, 1], "r", "A"⟩]⟩, ⟨2, 1, 3, []⟩, ⟨3, 1, 3, []⟩] ⟨3, [0, 1], "r", "A"⟩
      = [⟨1, 0, 3, [⟨2, [0, 1], "r", "A"⟩]⟩, ⟨2, 1, 3, []⟩, ⟨3, 1, 3, []⟩] := by
    simp [v1_feasible, Team.can_add]
  have h3 : v1_place ⟨2, 2, 3, 1, 0, 1/10, 1, 1, 1⟩ [[1, 1, 1, 1], [1, 1, 1, 1], [1, 1, 1, 1], [1, 1, 1, 1], [1, 1, 1, 1], [1, 1, 1, 1], [1, 1, 1, 1], [1, 1, 1, 1], [1, 1, 1, 1], [1, 1, 1, 1], [1, 1, 1, 1], [1, 1, 1, 1]]
      [⟨0, 0, 3, [⟨0, [0, 1], "r", "A"⟩, ⟨1, [0, 1], "r", "A"⟩]⟩, ⟨1, 0, 3, [⟨2, [0, 1], "r", "A"⟩]⟩, ⟨2, 1, 3, []⟩, ⟨3, 1, 3, []⟩] ⟨3, [0, 1], "r", "A"⟩ []
      = some ([⟨0, 0, 3, [⟨0, [0, 1], "r", "A"⟩, ⟨1, [0, 1], "r", "A"⟩]⟩, ⟨1, 0, 3, [⟨2, [0, 1], "r", "A"⟩, ⟨3, [0, 1], "r", "A"⟩]⟩, ⟨2, 1, 3, []⟩, ⟨3, 1, 3, []⟩], []) := by
    norm_num [v1_place, hf3, v1_weight, v1_weight_raises, v1_heuristic,
      mget, addToTeams, select_go, Team.add, randDraw, pickIdx,
      str_A_ne_Dutch, team_cons_eq_nil_false]
  have hf4 : v1_feasible [⟨0, 0, 3, [⟨0, [0, 1], "r", "A"⟩, ⟨1, [0, 1], "r", "A"⟩]⟩, ⟨1, 0, 3, [⟨2, [0, 1], "r", "A"⟩, ⟨3, [0, 1], "r", "A"⟩]⟩, ⟨2, 1, 3, []⟩, ⟨3, 1, 3, []⟩] ⟨4, [0, 1], "r", "A"⟩
      = [⟨2, 1, 3, []⟩, ⟨3, 1, 3, []⟩] := by
    simp [v1_feasible, Team.can_add]
  have h4 : v1_place ⟨2, 2, 3, 1, 0, 1/10, 1, 1, 1⟩ [[1, 1, 1, 1], [1, 1, 1, 1], [1, 1, 1, 1], [1, 1, 1, 1], [1, 1, 1, 1], [1, 1, 1, 1], [1, 1, 1, 1], [1, 1, 1, 1], [1, 1, 1, 1], [1, 1, 1, 1], [1, 1, 1, 1], [1, 1, 1, 1]]
      [⟨0, 0, 3, [⟨0, [0, 1], "r", "A"⟩, ⟨1, [0, 1], "r", "A"⟩]⟩, ⟨1, 0, 3, [⟨2, [0, 1], "r", "A"⟩, ⟨3, [0, 1], "r", "A"⟩]⟩, ⟨2, 1, 3, []⟩, ⟨3, 1, 3, []⟩] ⟨4, [0, 1], "r", "A"⟩ []
      = some ([⟨0, 0, 3, [⟨0, [0, 1], "r", "A"⟩, ⟨1, [0, 1], "r", "A"⟩]⟩, ⟨1, 0, 3, [⟨2, [0, 1], "r", "A"⟩, ⟨3, [0, 1], "r", "A"⟩]⟩, ⟨2, 1, 3, [⟨4, [0, 1], "r", "A"⟩]⟩, ⟨3, 1, 3, []⟩], []) := by
    norm_num [v1_place, hf4, v1_weight, v1_weight_raises, v1_heuristic,
      mget, addToTeams, select_go, Team.add, randDraw, pickIdx,
      str_A_ne_Dutch, team_cons_eq_nil_false]
  have hf5 : v1_feasible [⟨0, 0, 3, [⟨0, [0, 1], "r", "A"⟩, ⟨1, [0, 1], "r", "A"⟩]⟩, ⟨1, 0, 3, [⟨2, [0, 1], "r", "A"⟩, ⟨3, [0, 1], "r", "A"⟩]⟩, ⟨2, 1, 3, [⟨4, [0, 1], "r", "A"⟩]⟩, ⟨3, 1, 3, []⟩] ⟨5, [0, 1], "r", "A"⟩
      = [⟨2, 1, 3, [⟨4, [0, 1], "r", "A"⟩]⟩, ⟨3, 1, 3, []⟩] := by
    simp [v1_feasible, Team.can_add]
  have h5 : v1_place ⟨2, 2, 3, 1, 0, 1/10, 1, 1, 1⟩ [[1, 1, 1, 1], [1, 1, 1, 1], [1, 1, 1, 1], [1, 1, 1, 1], [1, 1, 1, 1], [1, 1, 1, 1], [1, 1, 1, 1], [1, 1, 1, 1], [1, 1, 1, 1], [1, 1, 1, 1], [1, 1, 1, 1], [1, 1, 1, 1]]
      [⟨0, 0, 3, [⟨0, [0, 1], "r", "A"⟩, ⟨1, [0, 1], "r", "A"⟩]⟩, ⟨1, 0, 3, [⟨2, [0, 1], "r", "A"⟩, ⟨3, [0, 1], "r", "A"⟩]⟩, ⟨2, 1, 3, [⟨4, [0, 1], "r", "A"⟩]⟩, ⟨3, 1, 3, []⟩] ⟨5, [0, 1], "r", "A"⟩ []
      = some ([⟨0, 0, 3, [⟨0, [0, 1], "r", "A"⟩, ⟨1, [0, 1], "r", "A"⟩]⟩, ⟨1, 0, 3, [⟨2, [0, 1], "r", "A"⟩, ⟨3, [0, 1], "r", "A"⟩]⟩, ⟨2, 1, 3, [⟨4, [0, 1], "r", "A"⟩, ⟨5, [0, 1], "r", "A"⟩]⟩, ⟨3, 1, 3, []⟩], []) := by
    norm_num [v1_place, hf5, v1_weight, v1_weight_raises, v1_heuristic,
      mget, addToTeams, select_go, Team.add, randDraw, pickIdx,
      str_A_ne_Dutch, team_cons_eq_nil_false]
  have hf6 : v1_feasible [⟨0, 0, 3, [⟨0, [0, 1], "r", "A"⟩, ⟨1, [0, 1], "r", "A"⟩]⟩, ⟨1, 0, 3, [⟨2, [0, 1], "r", "A"⟩, ⟨3, [0, 1], "r", "A"⟩]⟩, ⟨2, 1, 3, [⟨4, [0, 1], "r", "A"⟩, ⟨5, [0, 1], "r", "A"⟩]⟩, ⟨3, 1, 3, []⟩] ⟨6, [0, 1], "r", "A"⟩
      = [⟨3, 1, 3, []⟩] := by
    simp [v1_feasible, Team.can_add]
  have h6 : v1_place ⟨2, 2, 3, 1, 0, 1/10, 1, 1, 1⟩ [[1, 1, 1, 1], [1, 1, 1, 1], [1, 1, 1, 1], [1, 1, 1, 1], [1, 1, 1, 1], [1, 1, 1, 1], [1, 1, 1, 1], [1, 1, 1, 1], [1, 1, 1, 1], [1, 1, 1, 1], [1, 1, 1, 1], [1, 1, 1, 1]]
      [⟨0, 0, 3, [⟨0, [0, 1], "r", "A"⟩, ⟨1, [0, 1], "r", "A"⟩]⟩, ⟨1, 0, 3, [⟨2, [0, 1], "r", "A"⟩, ⟨3, [0, 1], "r", "A"⟩]⟩, ⟨2, 1, 3, [⟨4, [0, 1], "r", "A"⟩, ⟨5, [0, 1], "r", "A"⟩]⟩, ⟨3, 1, 3, []⟩] ⟨6, [0, 1], "r", "A"⟩ []
      = some ([⟨0, 0, 3, [⟨0, [0, 1], "r", "A"⟩, ⟨1, [0, 1], "r", "A"⟩]⟩, ⟨1, 0, 3, [⟨2, [0, 1], "r", "A"⟩, ⟨3, [0, 1], "r", "A"⟩]⟩, ⟨2, 1, 3, [⟨4, [0, 1], "r", "A"⟩, ⟨5, [0, 1], "r", "A"⟩]⟩, ⟨3, 1, 3, [⟨6, [0, 1], "r", "A"⟩]⟩], []) := by
    norm_num [v1_place, hf6, v1_weight, v1_weight_raises, v1_heuristic,
      mget, addToTeams, select_go, Team.add, randDraw, pickIdx,
      str_A_ne_Dutch, team_cons_eq_nil_false]
  have hf7 : v1_feasible [⟨0, 0, 3, [⟨0, [0, 1], "r", "A"⟩, ⟨1, [0, 1], "r", "A"⟩]⟩, ⟨1, 0, 3, [⟨2, [0, 1], "r", "A"⟩, ⟨3, [0, 1], "r", "A"⟩]⟩, ⟨2, 1, 3, [⟨4, [0, 1], "r", "A"⟩, ⟨5, [0, 1], "r", "A"⟩]⟩, ⟨3, 1, 3, [⟨6, [0, 1], "r", "A"⟩]⟩] ⟨7, [0, 1], "r", "A"⟩
      = [⟨3, 1, 3, [⟨6, [0, 1], "r", "A"⟩]⟩] := by
    simp [v1_feasible, Team.can_add]
  have h7 : v1_place ⟨2, 2, 3, 1, 0, 1/10, 1, 1, 1⟩ [[1, 1, 1, 1], [1, 1, 1, 1], [1, 1, 1, 1], [1, 1, 1, 1], [1, 1, 1, 1], [1, 1, 1, 1], [1, 1, 1, 1], [1, 1, 1, 1], [1, 1, 1, 1], [1, 1, 1, 1], [1, 1, 1, 1], [1, 1, 1, 1]]
      [⟨0, 0, 3, [⟨0, [0, 1], "r", "A"⟩, ⟨1, [0, 1], "r", "A"⟩]⟩, ⟨1, 0, 3, [⟨2, [0, 1], "r", "A"⟩, ⟨3, [0, 1], "r", "A"⟩]⟩, ⟨2, 1, 3, [⟨4, [0, 1], "r", "A"⟩, ⟨5, [0, 1], "r", "A"⟩]⟩, ⟨3, 1, 3, [⟨6, [0, 1], "r", "A"⟩]⟩] ⟨7, [0, 1], "r", "A"⟩ []
      = some ([⟨0, 0, 3, [⟨0, [0, 1], "r", "A"⟩, ⟨1, [0, 1], "r", "A"⟩]⟩, ⟨1, 0, 3, [⟨2, [0, 1], "r", "A"⟩, ⟨3, [0, 1], "r", "A"⟩]⟩, ⟨2, 1, 3, [⟨4, [0, 1], "r", "A"⟩, ⟨5, [0, 1], "r", "A"⟩]⟩, ⟨3, 1, 3, [⟨6, [0, 1], "r", "A"⟩, ⟨7, [0, 1], "r", "A"⟩]⟩], []) := by
    norm_num [v1_place, hf7, v1_weight, v1_weight_raises, v1_heuristic,
      mget, addToTeams, select_go, Team.add, randDraw, pickIdx,
      str_A_ne_Dutch, team_cons_eq_nil_false]
  have hf8 : v1_feasible [⟨0, 0, 3, [⟨0, [0, 1], "r", "A"⟩, ⟨1, [0, 1], "r", "A"⟩]⟩, ⟨1, 0, 3, [⟨2, [0, 1], "r", "A"⟩, ⟨3, [0, 1], "r", "A"⟩]⟩, ⟨2, 1, 3, [⟨4, [0, 1], "r", "A"⟩, ⟨5, [0, 1], "r", "A"⟩]⟩, ⟨3, 1, 3, [⟨6, [0, 1], "r", "A"⟩, ⟨7, [0, 1], "r", "A"⟩]⟩] ⟨8, [0, 1], "r", "A"⟩
      = [⟨0, 0, 3, [⟨0, [0, 1], "r", "A"⟩, ⟨1, [0, 1], "r", "A"⟩]⟩, ⟨1, 0, 3, [⟨2, [0, 1], "r", "A"⟩, ⟨3, [0, 1], "r", "A"⟩]⟩, ⟨2, 1, 3, [⟨4, [0, 1], "r", "A"⟩, ⟨5, [0, 1], "r", "A"⟩]⟩, ⟨3, 1, 3, [⟨6, [0, 1], "r", "A"⟩, ⟨7, [0, 1], "r", "A"⟩]⟩] := by
    simp [v1_feasible, Team.can_add]
  have h8 : v1_place ⟨2, 2, 3, 1, 0, 1/10, 1, 1, 1⟩ [[1, 1, 1, 1], [1, 1, 1, 1], [1, 1, 1, 1], [1, 1, 1, 1], [1, 1, 1, 1], [1, 1, 1, 1], [1, 1, 1, 1], [1, 1, 1, 1], [1, 1, 1, 1], [1, 1, 1, 1], [1, 1, 1, 1], [1, 1, 1, 1]]
      [⟨0, 0, 3, [⟨0, [0, 1], "r", "A"⟩, ⟨1, [0, 1], "r", "A"⟩]⟩, ⟨1, 0, 3, [⟨2, [0, 1], "r", "A"⟩, ⟨3, [0, 1], "r", "A"⟩]⟩, ⟨2, 1, 3, [⟨4, [0, 1], "r", "A"⟩, ⟨5, [0, 1], "r", "A"⟩]⟩, ⟨3, 1, 3, [⟨6, [0, 1], "r", "A"⟩, ⟨7, [0, 1], "r", "A"⟩]⟩] ⟨8, [0, 1], "r", "A"⟩ []
      = some ([⟨0, 0, 3, [⟨0, [0, 1], "r", "A"⟩, ⟨1, [0, 1], "r", "A"⟩, ⟨8, [0, 1], "r", "A"⟩]⟩, ⟨1, 0, 3, [⟨2, [0, 1], "r", "A"⟩, ⟨3, [0, 1], "r", "A"⟩]⟩, ⟨2, 1, 3, [⟨4, [0, 1], "r", "A"⟩, ⟨5, [0, 1], "r", "A"⟩]⟩, ⟨3, 1, 3, [⟨6, [0, 1], "r", "A"⟩, ⟨7, [0, 1], "r", "A"⟩]⟩], []) := by
    norm_num [v1_place, hf8, v1_weight, v1_weight_raises, v1_heuristic,
      mget, addToTeams, select_go, Team.add, randDraw, pickIdx,
      str_A_ne_Dutch, team_cons_eq_nil_false]
  have hf9 : v1_feasible [⟨0, 0, 3, [⟨0, [0, 1], "r", "A"⟩, ⟨1, [0, 1], "r", "A"⟩, ⟨8, [0, 1], "r", "A"⟩]⟩, ⟨1, 0, 3, [⟨2, [0, 1], "r", "A"⟩, ⟨3, [0, 1], "r", "A"⟩]⟩, ⟨2, 1, 3, [⟨4, [0, 1], "r", "A"⟩, ⟨5, [0, 1], "r", "A"⟩]⟩, ⟨3, 1, 3, [⟨6, [0, 1], "r", "A"⟩, ⟨7, [0, 1], "r", "A"⟩]⟩] ⟨9, [0, 1], "r", "A"⟩
      = [⟨1, 0, 3, [⟨2, [0, 1], "r", "A"⟩, ⟨3, [0, 1], "r", "A"⟩]⟩, ⟨2, 1, 3, [⟨4, [0, 1], "r", "A"⟩, ⟨5, [0, 1], "r", "A"⟩]⟩, ⟨3, 1, 3, [⟨6, [0, 1], "r", "A"⟩, ⟨7, [0, 1], "r", "A"⟩]⟩] := by
    simp [v1_feasible, Team.can_add]
  have h9 : v1_place ⟨2, 2, 3, 1, 0, 1/10, 1, 1, 1⟩ [[1, 1, 1, 1], [1, 1, 1, 1], [1, 1, 1, 1], [1, 1, 1, 1], [1, 1, 1, 1], [1, 1, 1, 1], [1, 1, 1, 1], [1, 1, 1, 1], [1, 1, 1, 1], [1, 1, 1, 1], [1, 1, 1, 1], [1, 1, 1, 1]]
      [⟨0, 0, 3, [⟨0, [0, 1], "r", "A"⟩, ⟨1, [0, 1], "r", "A"⟩, ⟨8, [0, 1], "r", "A"⟩]⟩, ⟨1, 0, 3, [⟨2, [0, 1], "r", "A"⟩, ⟨3, [0, 1], "r", "A"⟩]⟩, ⟨2, 1, 3, [⟨4, [0, 1], "r", "A"⟩, ⟨5, [0, 1], "r", "A"⟩]⟩, ⟨3, 1, 3, [⟨6, [0, 1], "r", "A"⟩, ⟨7, [0, 1], "r", "A"⟩]⟩] ⟨9, [0, 1], "r", "A"⟩ []
      = some ([⟨0, 0, 3, [⟨0, [0, 1], "r", "A"⟩, ⟨1, [0, 1], "r", "A"⟩, ⟨8, [0, 1], "r", "A"⟩]⟩, ⟨1, 0, 3, [⟨2, [0, 1], "r", "A"⟩, ⟨3, [0, 1], "r", "A"⟩, ⟨9, [0, 1], "r", "A"⟩]⟩, ⟨2, 1, 3, [⟨4, [0, 1], "r", "A"⟩, ⟨5, [0, 1], "r", "A"⟩]⟩, ⟨3, 1, 3, [⟨6, [0, 1], "r", "A"⟩, ⟨7, [0, 1], "r", "A"⟩]⟩], []) := by
    norm_num [v1_place, hf9, v1_weight, v1_weight_raises, v1_heuristic,
      mget, addToTeams, select_go, Team.add, randDraw, pickIdx,
      str_A_ne_Dutch, team_cons_eq_nil_false]
  have hf10 : v1_feasible [⟨0, 0, 3, [⟨0, [0, 1], "r", "A"⟩, ⟨1, [0, 1], "r", "A"⟩, ⟨8, [0, 1], "r", "A"⟩]⟩, ⟨1, 0, 3, [⟨2, [0, 1], "r", "A"⟩, ⟨3, [0, 1], "r", "A"⟩, ⟨9, [0, 1], "r", "A"⟩]⟩, ⟨2, 1, 3, [⟨4, [0, 1], "r", "A"⟩, ⟨5, [0, 1], "r", "A"⟩]⟩, ⟨3, 1, 3, [⟨6, [0, 1], "r", "A"⟩, ⟨7, [0, 1], "r", "A"⟩]⟩] ⟨10, [0, 1], "r", "A"⟩
      = [⟨2, 1, 3, [⟨4, [0, 1], "r", "A"⟩, ⟨5, [0, 1], "r", "A"⟩]⟩, ⟨3, 1, 3, [⟨6, [0, 1], "r", "A"⟩, ⟨7, [0, 1], "r", "A"⟩]⟩] := by
    simp [v1_feasible, Team.can_add]
  have h10 : v1_place ⟨2, 2, 3, 1, 0, 1/10, 1, 1, 1⟩ [[1, 1, 1, 1], [1, 1, 1, 1], [1, 1, 1, 1], [1, 1, 1, 1], [1, 1, 1, 1], [1, 1, 1, 1], [1, 1, 1, 1], [1, 1, 1, 1], [1, 1, 1, 1], [1, 1, 1, 1], [1, 1, 1, 1], [1, 1, 1, 1]]
      [⟨0, 0, 3, [⟨0, [0, 1], "r", "A"⟩, ⟨1, [0, 1], "r", "A"⟩, ⟨8, [0, 1], "r", "A"⟩]⟩, ⟨1, 0, 3, [⟨2, [0, 1], "r", "A"⟩, ⟨3, [0, 1], "r", "A"⟩, ⟨9, [0, 1], "r", "A"⟩]⟩, ⟨2, 1, 3, [⟨4, [0, 1], "r", "A"⟩, ⟨5, [0, 1], "r", "A"⟩]⟩, ⟨3, 1, 3, [⟨6, [0, 1], "r", "A"⟩, ⟨7, [0, 1], "r", "A"⟩]⟩] ⟨10, [0, 1], "r", "A"⟩ []
      = some ([⟨0, 0, 3, [⟨0, [0, 1], "r", "A"⟩, ⟨1, [0, 1], "r", "A"⟩, ⟨8, [0, 1], "r", "A"⟩]⟩, ⟨1, 0, 3, [⟨2, [0, 1], "r", "A"⟩, ⟨3, [0, 1], "r", "A"⟩, ⟨9, [0, 1], "r", "A"⟩]⟩, ⟨2, 1, 3, [⟨4, [0, 1], "r", "A"⟩, ⟨5, [0, 1], "r", "A"⟩, ⟨10, [0, 1], "r", "A"⟩]⟩, ⟨3, 1, 3, [⟨6, [0, 1], "r", "A"⟩, ⟨7, [0, 1], "r", "A"⟩]⟩], []) := by
    norm_num [v1_place, hf10, v1_weight, v1_weight_raises, v1_heuristic,
      mget, addToTeams, select_go, Team.add, randDraw, pickIdx,
      str_A_ne_Dutch, team_cons_eq_nil_false]
  have hf11 : v1_feasible [⟨0, 0, 3, [⟨0, [0, 1], "r", "A"⟩, ⟨1, [0, 1], "r", "A"⟩, ⟨8, [0, 1], "r", "A"⟩]⟩, ⟨1, 0, 3, [⟨2, [0, 1], "r", "A"⟩, ⟨3, [0, 1], "r", "A"⟩, ⟨9, [0, 1], "r", "A"⟩]⟩, ⟨2, 1, 3, [⟨4, [0, 1], "r", "A"⟩, ⟨5, [0, 1], "r", "A"⟩, ⟨10, [0, 1], "r", "A"⟩]⟩, ⟨3, 1, 3, [⟨6, [0, 1], "r", "A"⟩, ⟨7, [0, 1], "r", "A"⟩]⟩] ⟨11, [0, 1], "r", "A"⟩
      = [⟨3, 1, 3, [⟨6, [0, 1], "r", "A"⟩, ⟨7, [0, 1], "r", "A"⟩]⟩] := by
    simp [v1_feasible, Team.can_add]
  have h11 : v1_place ⟨2, 2, 3, 1, 0, 1/10, 1, 1, 1⟩ [[1, 1, 1, 1], [1, 1, 1, 1], [1, 1, 1, 1], [1, 1, 1, 1], [1, 1, 1, 1], [1, 1, 1, 1], [1, 1, 1, 1], [1, 1, 1, 1], [1, 1, 1, 1], [1, 1, 1, 1], [1, 1, 1, 1], [1, 1, 1, 1]]
      [⟨0, 0, 3, [⟨0, [0, 1], "r", "A"⟩, ⟨1, [0, 1], "r", "A"⟩, ⟨8, [0, 1], "r", "A"⟩]⟩, ⟨1, 0, 3, [⟨2, [0, 1], "r", "A"⟩, ⟨3, [0, 1], "r", "A"⟩, ⟨9, [0, 1], "r", "A"⟩]⟩, ⟨2, 1, 3, [⟨4, [0, 1], "r", "A"⟩, ⟨5, [0, 1], "r", "A"⟩, ⟨10, [0, 1], "r", "A"⟩]⟩, ⟨3, 1, 3, [⟨6, [0, 1], "r", "A"⟩, ⟨7, [0, 1], "r", "A"⟩]⟩] ⟨11, [0, 1], "r", "A"⟩ []
      = some ([⟨0, 0, 3, [⟨0, [0, 1], "r", "A"⟩, ⟨1, [0, 1], "r", "A"⟩, ⟨8, [0, 1], "r", "A"⟩]⟩, ⟨1, 0, 3, [⟨2, [0, 1], "r", "A"⟩, ⟨3, [0, 1], "r", "A"⟩, ⟨9, [0, 1], "r", "A"⟩]⟩, ⟨2, 1, 3, [⟨4, [0, 1], "r", "A"⟩, ⟨5, [0, 1], "r", "A"⟩, ⟨10, [0, 1], "r", "A"⟩]⟩, ⟨3, 1, 3, [⟨6, [0, 1], "r", "A"⟩, ⟨7, [0, 1], "r", "A"⟩, ⟨11, [0, 1], "r", "A"⟩]⟩], []) := by
    norm_num [v1_place, hf11, v1_weight, v1_weight_raises, v1_heuristic,
      mget, addToTeams, select_go, Team.add, randDraw, pickIdx,
      str_A_ne_Dutch, team_cons_eq_nil_false]
  have hgo : v1_construct_go ⟨2, 2, 3, 1, 0, 1/10, 1, 1, 1⟩ [[1, 1, 1, 1], [1, 1, 1, 1], [1, 1, 1, 1], [1, 1, 1, 1], [1, 1, 1, 1], [1, 1, 1, 1], [1, 1, 1, 1], [1, 1, 1, 1], [1, 1, 1, 1], [1, 1, 1, 1], [1, 1, 1, 1], [1, 1, 1, 1]]
      [⟨0, [0, 1], "r", "A"⟩, ⟨1, [0, 1], "r", "A"⟩, ⟨2, [0, 1], "r", "A"⟩, ⟨3, [0, 1], "r", "A"⟩, ⟨4, [0, 1], "r", "A"⟩, ⟨5, [0, 1], "r", "A"⟩, ⟨6, [0, 1], "r", "A"⟩, ⟨7, [0, 1], "r", "A"⟩, ⟨8, [0, 1], "r", "A"⟩, ⟨9, [0, 1], "r", "A"⟩, ⟨10, [0, 1], "r", "A"⟩, ⟨11, [0, 1], "r", "A"⟩]
      [⟨0, 0, 3, []⟩, ⟨1, 0, 3, []⟩, ⟨2, 1, 3, []⟩, ⟨3, 1, 3, []⟩] [] = some ([⟨0, 0, 3, [⟨0, [0, 1], "r", "A"⟩, ⟨1, [0, 1], "r", "A"⟩, ⟨8, [0, 1], "r", "A"⟩]⟩, ⟨1, 0, 3, [⟨2, [0, 1], "r", "A"⟩, ⟨3, [0, 1], "r", "A"⟩, ⟨9, [0, 1], "r", "A"⟩]⟩, ⟨2, 1, 3, [⟨4, [0, 1], "r", "A"⟩, ⟨5, [0, 1], "r", "A"⟩, ⟨10, [0, 1], "r", "A"⟩]⟩, ⟨3, 1, 3, [⟨6, [0, 1], "r", "A"⟩, ⟨7, [0, 1], "r", "A"⟩, ⟨11, [0, 1], "r", "A"⟩]⟩], []) := by
    simp only [v1_construct_go, h0, h1, h2, h3, h4, h5, h6, h7, h8, h9, h10, h11]
  unfold v1_construct
  rw [hshuf1, hshuf2, hbase, hgo]
  decide

/-- Model of the student dictionaries consumed by v2/aco.py (the
nationality column is not used by the v2 optimizer). -/
structure V2Student where
  student_id : ℕ
  preferences : List ℕ
  belbin_role : String
  deriving DecidableEq

instance : Inhabited V2Student := ⟨⟨0, [], ""⟩⟩

/-- Model of the v2 pheromone store self.pheromones = defaultdict(lambda:
1.0): an insertion-ordered association list over (student_id, team index)
keys. -/
abbrev Phero := List ((ℕ × ℕ) × ℚ)

/-- Key lookup in the association list (dict keys are unique). -/
def pheroFind : Phero → (ℕ × ℕ) → Option ℚ
  | [], _ => none
  | (k0, v0) :: rest, k => if k0 = k then some v0 else pheroFind rest k

/-- Model of reading the defaultdict: a missing key is inserted with the
default weight 1.0 before being returned. -/
def pheroGet (ph : Phero) (k : ℕ × ℕ) : ℚ × Phero :=
  match pheroFind ph k with
  | some v => (v, ph)
  | none => (1, ph ++ [(k, 1)])

/-- Replace the value stored under an existing key. -/
def pheroSet : Phero → (ℕ × ℕ) → ℚ → Phero
  | [], k, v => [(k, v)]
  | (k0, v0) :: rest, k, v =>
    if k0 = k then (k0, v) :: rest else (k0, v0) :: pheroSet rest k v

/-- Model of self.pheromones[key] += x on the defaultdict: a missing key
first receives the default 1.0. -/
def pheroAdd (ph : Phero) (k : ℕ × ℕ) (x : ℚ) : Phero :=
  match pheroFind ph k with
  | some v => pheroSet ph k (v + x)
  | none => ph ++ [(k, 1 + x)]

/-- Configuration of AntColonyOptimizer in v2/aco.py.  Note: it has no
random seed parameter, and v2/aco.py never seeds the global random
source. -/
structure V2Config where
  num_teams : ℕ
  team_size : ℕ
  max_iter : ℕ
  num_ants : ℕ
  alpha : ℕ
  beta : ℕ
  rho : ℚ
  preference_weight : ℚ
  deriving DecidableEq

/-- Model of AntColonyOptimizer.heuristic. -/
def v2_heuristic (cfg : V2Config) (s : V2Student) (team : List V2Student) : ℚ :=
  if team = [] then 1
  else
    let roles := team.map V2Student.belbin_role
    let div_score : ℚ := if s.belbin_role ∈ roles then 1/2 else 1
    let team_projects := team.filterMap (fun x => x.preferences.head?)
    let pref_score :=
      ((team_projects.filter (fun p => p ∈ s.preferences)).map
          (fun p => (5 : ℚ) - ((s.preferences.indexOf p : ℕ) : ℚ))).sum
        / (5 * (team_projects.length : ℚ) + 1/100000)
    cfg.preference_weight * pref_score + (1 - cfg.preference_weight) * div_score

/-- Model of Python teams.index(team): the first position holding a team
equal (as a list) to the given one. -/
def indexOfTeam (teams : List (List V2Student)) (t : List V2Student) : ℕ :=
  teams.findIdx (fun x => x = t)

/-- The score loop of v2 construct_solution: each pheromone read goes
through the defaultdict and may insert the default. -/
def v2_scores (cfg : V2Config) (s : V2Student) (teams : List (List V2Student)) :
    List (List V2Student) → Phero → List ℚ × Phero
  | [], ph => ([], ph)
  | team :: rest, ph =>
    let got := pheroGet ph (s.student_id, indexOfTeam teams team)
    let sc := got.1 ^ cfg.alpha * (v2_heuristic cfg s team) ^ cfg.beta
    let r := v2_scores cfg s teams rest got.2
    (sc :: r.1, r.2)

/-- Model of random.choices(feasible, weights=probs, k=1): cumulative
inversion with threshold r, capped at the last element. -/
def v2_choices (r : ℚ) (cum : ℚ) : List (List V2Student × ℚ) → Option (List V2Student)
  | [] => none
  | (x, p) :: rest =>
    if rest = [] then some x
    else if r < cum + p then some x else v2_choices r (cum + p) rest

/-- Model of the per-student loop of v2 construct_solution.  A student
with no feasible team is skipped (continue); a zero score total raises
ZeroDivisionError in the probability normalization (none). -/
def v2_construct_go (cfg : V2Config) :
    List V2Student → List (List V2Student) → Phero → List ℚ →
    Option (List (List V2Student) × Phero × List ℚ)
  | [], teams, ph, g => some (teams, ph, g)
  | s :: rest, teams, ph, g =>
    let feasible := teams.filter (fun t => t.length < cfg.team_size)
    let sc := v2_scores cfg s teams feasible ph
    if sc.1 = [] then v2_construct_go cfg rest teams sc.2 g
    else if sc.1.sum = 0 then none
    else
      match v2_choices ((randDraw g).1 * (sc.1.map (fun x => x / sc.1.sum)).sum) 0
          (feasible.zip (sc.1.map (fun x => x / sc.1.sum))) with
      | none => none
      | some chosen =>
        v2_construct_go cfg rest
          (teams.set (indexOfTeam teams chosen)
            ((teams.getD (indexOfTeam teams chosen) []) ++ [s]))
          sc.2 (randDraw g).2

/-- Model of v2 construct_solution: shuffle the students and place each
one into the freshly created empty team lists, threading the pheromone
store (whose defaultdict reads may insert defaults). -/
def v2_construct (cfg : V2Config) (students : List V2Student) (ph : Phero)
    (g : List ℚ) : Option (List (List V2Student) × Phero × List ℚ) :=
  v2_construct_go cfg (shuffleL students g).1
    (List.replicate cfg.num_teams []) ph (shuffleL students g).2

/-- The per-team preference accumulator of v2 evaluate:
5 - s.preferences.index(s.preferences[0]) per member; an empty preference
list raises IndexError on preferences[0] (none).  The except ValueError
in the source is unreachable since the looked-up element is the list's
own head. -/
def v2_team_pref_sum (team : List V2Student) : Option ℚ :=
  team.foldl (fun acc s =>
    match acc, s.preferences with
    | none, _ => none
    | _, [] => none
    | some a, p :: rest => some (a + (5 - (((p :: rest).indexOf p : ℕ) : ℚ)))) (some 0)

/-- The two per-team accumulators of v2 evaluate: total diversity (distinct
roles / 9) and total preference score. -/
def v2_eval_go : List (List V2Student) → Option (ℚ × ℚ)
  | [] => some (0, 0)
  | team :: rest =>
    match v2_eval_go rest with
    | none => none
    | some (d, p) =>
      match v2_team_pref_sum team with
      | none => none
      | some pr =>
        some (d + ((team.map V2Student.belbin_role).dedup.length : ℚ) / 9,
          p + (if team = [] then 0 else pr / (5 * (team.length : ℚ))))

/-- Model of AntColonyOptimizer.evaluate; none models the ZeroDivisionError
on an empty team list. -/
def v2_evaluate (cfg : V2Config) (teams : List (List V2Student)) : Option ℚ :=
  match v2_eval_go teams with
  | none => none
  | some (d, p) =>
    if teams.length = 0 then none
    else some (cfg.preference_weight * (p / (teams.length : ℚ))
      + (1 - cfg.preference_weight) * (d / (teams.length : ℚ)))

/-- Model of AntColonyOptimizer.evaporate_pheromones: every stored weight
is multiplied by (1 - rho); there is no floor. -/
def v2_evaporate_pheromones (rho : ℚ) (ph : Phero) : Phero :=
  ph.map (fun kv => (kv.1, kv.2 * (1 - rho)))

/-- Model of AntColonyOptimizer.update_pheromones: every candidate of the
iteration reinforces every one of its (student, team index) pairs by its
own fitness. -/
def v2_update_pheromones (sols : List (List (List V2Student) × ℚ)) (ph : Phero) : Phero :=
  sols.foldl (fun ph0 sol =>
    (sol.1.enum).foldl (fun ph1 it =>
      it.2.foldl (fun ph2 s => pheroAdd ph2 (s.student_id, it.1) sol.2) ph1) ph0) ph

/-- The ant loop of one v2 iteration, threading pheromones, the random
stream and the running best (None models best_fitness = -inf). -/
def v2_ants (cfg : V2Config) (students : List V2Student) :
    ℕ → Phero → List ℚ → Option (List (List V2Student) × ℚ) →
    Option (List (List (List V2Student) × ℚ) × Phero × List ℚ ×
      Option (List (List V2Student) × ℚ))
  | 0, ph, g, best => some ([], ph, g, best)
  | Nat.succ n, ph, g, best =>
    match v2_construct cfg students ph g with
    | none => none
    | some (sol, ph1, g1) =>
      match v2_evaluate cfg sol with
      | none => none
      | some fit =>
        let best1 := match best with
          | none => some (sol, fit)
          | some b => if b.2 < fit then some (sol, fit) else some b
        match v2_ants cfg students n ph1 g1 best1 with
        | none => none
        | some (sols, ph2, g2, best2) => some ((sol, fit) :: sols, ph2, g2, best2)

/-- The iteration loop of AntColonyOptimizer.run: per iteration all ants
construct and evaluate, then evaporation and reinforcement are applied. -/
def v2_loop (cfg : V2Config) (students : List V2Student) :
    ℕ → Phero → List ℚ → Option (List (List V2Student) × ℚ) →
    Option (Phero × List ℚ × Option (List (List V2Student) × ℚ))
  | 0, ph, g, best => some (ph, g, best)
  | Nat.succ n, ph, g, best =>
    match v2_ants cfg students cfg.num_ants ph g best with
    | none => none
    | some (sols, ph1, g1, best1) =>
      v2_loop cfg students n
        (v2_update_pheromones sols (v2_evaporate_pheromones cfg.rho ph1)) g1 best1

/-- Model of AntColonyOptimizer.run: the pheromone store starts empty (a
fresh defaultdict per optimizer instance), but the global random stream g
is whatever the process currently holds — v2 has no seed.  Returns the
best (solution, fitness) and the remaining random stream. -/
def v2_run (cfg : V2Config) (students : List V2Student) (g : List ℚ) :
    Option (Option (List (List V2Student) × ℚ) × List ℚ) :=
  match v2_loop cfg students cfg.max_iter [] g none with
  | none => none
  | some (_, g1, best) => some (best, g1)

/-- Counterexample for C1: v2's update_pheromones reinforces every
candidate of the iteration, not only the best one: with a best candidate
of fitness 2 holding only the pair (0, 0) and a weaker candidate of
fitness 1 holding the pair (1, 1), the weaker candidate's pair is also
reinforced (from the default 1 to 2), and the increments are the raw
fitness values (v2 has no q factor). -/
theorem v2_update_not_elitist_counterexample :
    v2_update_pheromones
      [([[⟨0, [0], "r"⟩], []], 2), ([[], [⟨1, [0], "r"⟩]], 1)] []
      = [((0, 0), 3), ((1, 1), 2)] := by
  norm_num [v2_update_pheromones, pheroAdd, pheroSet, pheroFind, List.enum,
    List.enumFrom, Prod.mk.injEq]

/-- Counterexample for C2: v2's evaporate_pheromones has no floor: with
rho = 99999999/100000000 (inside (0,1)) a weight of 1 drops to 1e-8,
strictly below the 1e-6 floor and different from
max(1e-6, old * (1 - rho)). -/
theorem v2_evaporate_no_floor_counterexample :
    v2_evaporate_pheromones (99999999/100000000) [((0, 0), 1)]
        = [((0, 0), 1/100000000)]
      ∧ ((1 : ℚ)/100000000 < 1/1000000)
      ∧ ((1 : ℚ)/100000000 ≠ max (1/1000000) (1 * (1 - 99999999/100000000))) := by
  refine ⟨?_, by norm_num, ?_⟩
  · norm_num [v2_evaporate_pheromones]
  · have h1 : (1 : ℚ) * (1 - 99999999/100000000) = 1/100000000 := by norm_num
    rw [h1]
    have h2 : max ((1 : ℚ)/1000000) (1/100000000) = 1/1000000 :=
      max_eq_left (by norm_num)
    rw [h2]
    norm_num

/-- Refinement comparison definition following the spec text: group
fitness is 0.5 times the mean member satisfaction with the group's
project plus 0.5 times the fraction of distinct role labels among
members, and 0 for an empty group. -/
def group_fitness_spec (t : Team) : ℚ :=
  if t.students = [] then 0
  else (1/2) * ((t.students.map (fun s => s.satisfaction t.project)).sum
        / (t.students.length : ℚ))
    + (1/2) * (((t.students.map Student.belbin).dedup.length : ℚ)
        / (t.students.length : ℚ))

theorem v1_construct_go_length {cfg : ACOConfig} {tau : Tau} :
    ∀ {order : List Student} {teams : List Team} {g : List ℚ}
      {teams' : List Team} {g' : List ℚ},
    v1_construct_go cfg tau order teams g = some (teams', g') →
    teams'.length = teams.length := by
  intro order
  induction order with
  | nil =>
    intro teams g teams' g' h
    have heq := Option.some.inj h
    have h1 : teams = teams' := congrArg Prod.fst heq
    rw [← h1]
  | cons s rest ih =>
    intro teams g teams' g' h
    unfold v1_construct_go at h
    rcases hplace : v1_place cfg tau teams s g with _ | ⟨teams1, g1⟩
    · rw [hplace] at h
      exact absurd h (by simp)
    · rw [hplace] at h
      obtain ⟨⟨chosen, _, hteq⟩, -⟩ := v1_place_some hplace
      rw [ih h, hteq, length_addToTeams]

/-- C4 (amended, v1 part): Team.fitness equals the spec formula (0.5 *
mean satisfaction + 0.5 * distinct-role fraction, 0 when empty), and the
fitness value returned by construct_solution is the unweighted mean of
Team.fitness over all teams of the candidate. -/
theorem v1_fitness_spec (t : Team) {cfg : ACOConfig} {tau : Tau}
    {students : List Student} {g : List ℚ} {teams : List Team} {f : ℚ} {g' : List ℚ}
    (hc : v1_construct cfg tau students g = some ((teams, f), g')) :
    Team.fitness t = group_fitness_spec t
    ∧ f = (teams.map Team.fitness).sum / (teams.length : ℚ) := by
  constructor
  · unfold Team.fitness group_fitness_spec Team.satisfaction_score Team.belbin_diversity
    by_cases h : t.students = []
    · rw [if_pos h, if_pos h, if_pos h]
      norm_num
    · rw [if_neg h, if_neg h, if_neg h]
  · unfold v1_construct at hc
    rcases hgo : v1_construct_go cfg tau (shuffleL students g).1 (base_teams cfg)
        (shuffleL students g).2 with _ | ⟨teams0, g2⟩
    · rw [hgo] at hc
      exact absurd hc (by simp)
    · rw [hgo] at hc
      have hc2 : (if cfg.n_teams = 0 then none
          else some ((teams0, (teams0.map Team.fitness).sum / (cfg.n_teams : ℚ)), g2))
          = some ((teams, f), g') := hc
      by_cases hn0 : cfg.n_teams = 0
      case pos =>
        rw [if_pos hn0] at hc2
        exact absurd hc2 (by simp)
      case neg =>
      rw [if_neg hn0] at hc2
      have heq := Option.some.inj hc2
      have hteams : teams0 = teams := congrArg Prod.fst (congrArg Prod.fst heq)
      have hf : (teams0.map Team.fitness).sum / (cfg.n_teams : ℚ) = f :=
        congrArg Prod.snd (congrArg Prod.fst heq)
      have hlen : teams.length = cfg.n_teams := by
        rw [← hteams, v1_construct_go_length hgo, base_teams_length]
      rw [← hf, hteams, hlen]

/-- Witness for C4: the constructed two-team candidate's fitness 1/2 is
the mean of Team.fitness over its teams, and the occupied team's fitness
matches the spec formula. -/
theorem v1_fitness_spec_witness :
    Team.fitness ⟨0, 0, 1, [⟨0, [0, 1], "r", "A"⟩]⟩
        = group_fitness_spec ⟨0, 0, 1, [⟨0, [0, 1], "r", "A"⟩]⟩
    ∧ (1/2 : ℚ) =
        (([⟨0, 0, 1, [⟨0, [0, 1], "r", "A"⟩]⟩, ⟨1, 1, 1, []⟩] : List Team).map
          Team.fitness).sum
        / (([⟨0, 0, 1, [⟨0, [0, 1], "r", "A"⟩]⟩, ⟨1, 1, 1, []⟩] : List Team).length : ℚ) := by
  have hEval : v1_construct ⟨2, 1, 1, 1, 0, 1/10, 1, 1, 1⟩ [[1, 1]]
      [⟨0, [0, 1], "r", "A"⟩] []
      = some (([⟨0, 0, 1, [⟨0, [0, 1], "r", "A"⟩]⟩, ⟨1, 1, 1, []⟩], 1/2), []) := by
    norm_num [v1_construct, shuffleL, shuffleGo, randDraw, pickIdx, base_teams,
      ACOConfig.n_teams, v1_construct_go, v1_place, v1_feasible, Team.can_add,
      v1_weight, v1_weight_raises, v1_heuristic, mget, addToTeams, select_go,
      Team.add, List.range_succ, Student.satisfaction, Team.fitness,
      Team.satisfaction_score, Team.belbin_diversity, str_A_ne_Dutch,
      team_cons_eq_nil_false]
  exact v1_fitness_spec ⟨0, 0, 1, [⟨0, [0, 1], "r", "A"⟩]⟩ hEval

/-- Counterexample for C4: v2's evaluate does not compute the claimed
formula: a single team of ten members with pairwise distinct roles gets
fitness 19/18 > 1, while the claimed formula (0.5 * mean satisfaction in
[0,1] + 0.5 * distinct-role fraction in [0,1]) can never exceed 1 — v2
normalizes diversity by the constant 9 instead of the member count, and
its preference term is identically 1 for nonempty teams. -/
theorem v2_evaluate_counterexample :
    v2_evaluate ⟨1, 10, 1, 1, 1, 1, 0, 1/2⟩
        [[⟨0, [0], "r0"⟩, ⟨1, [0], "r1"⟩, ⟨2, [0], "r2"⟩, ⟨3, [0], "r3"⟩,
          ⟨4, [0], "r4"⟩, ⟨5, [0], "r5"⟩, ⟨6, [0], "r6"⟩, ⟨7, [0], "r7"⟩,
          ⟨8, [0], "r8"⟩, ⟨9, [0], "r9"⟩]]
      = some (19/18) ∧ (1 : ℚ) < 19/18 := by
  constructor
  · have hpr : v2_team_pref_sum
        [⟨0, [0], "r0"⟩, ⟨1, [0], "r1"⟩, ⟨2, [0], "r2"⟩, ⟨3, [0], "r3"⟩,
          ⟨4, [0], "r4"⟩, ⟨5, [0], "r5"⟩, ⟨6, [0], "r6"⟩, ⟨7, [0], "r7"⟩,
          ⟨8, [0], "r8"⟩, ⟨9, [0], "r9"⟩] = some 50 := by
      norm_num [v2_team_pref_sum]
    have hded : (["r0", "r1", "r2", "r3", "r4", "r5", "r6", "r7", "r8",
        "r9"] : List String).dedup.length = 10 := by decide
    have hnil : ([⟨0, [0], "r0"⟩, ⟨1, [0], "r1"⟩, ⟨2, [0], "r2"⟩, ⟨3, [0], "r3"⟩,
        ⟨4, [0], "r4"⟩, ⟨5, [0], "r5"⟩, ⟨6, [0], "r6"⟩, ⟨7, [0], "r7"⟩,
        ⟨8, [0], "r8"⟩, ⟨9, [0], "r9"⟩] = ([] : List V2Student)) = False := by
      simp
    norm_num [v2_evaluate, v2_eval_go, hpr, hded, hnil]
  · norm_num

/-- Model of the stream of draws produced by Python's global random source
right after random.seed(seed): one fixed stream per seed (the particular
values are a model; what matters is that the stream is a function of the
seed alone). -/
def seedStream (seed : ℕ) : List ℚ :=
  (List.range 1000).map
    (fun k => (((seed + 1) * (k + 1) * 2654435761 % 1000000 : ℕ) : ℚ) / 1000000)

/-- Model of the random.seed(seed) call in ACO.__init__: the ambient global
random state g is discarded and replaced by the stream determined by the
seed. -/
def v1_init_rng (g : List ℚ) (seed : ℕ) : List ℚ := seedStream seed

/-- The ant loop of one v1 iteration. -/
def v1_ants (cfg : ACOConfig) (tau : Tau) (students : List Student) :
    ℕ → List ℚ → Option (List (List Team × ℚ) × List ℚ)
  | 0, g => some ([], g)
  | Nat.succ n, g =>
    match v1_construct cfg tau students g with
    | none => none
    | some (sol, g1) =>
      match v1_ants cfg tau students n g1 with
      | none => none
      | some (sols, g2) => some (sol :: sols, g2)

/-- The iteration loop of ACO.run: construct n_ants candidates, update the
pheromones from them, track the strictly improving global best (None
models global_best_fit = -inf). -/
def v1_loop (cfg : ACOConfig) (students : List Student) :
    ℕ → Tau → Option (List Team × ℚ) → List ℚ →
    Option (Option (List Team × ℚ) × List ℚ)
  | 0, _, best, g => some (best, g)
  | Nat.succ n, tau, best, g =>
    match v1_ants cfg tau students cfg.n_ants g with
    | none => none
    | some (sols, g1) =>
      match v1_update_pheromones cfg tau sols with
      | none => none
      | some tau1 =>
        match sols with
        | [] => none
        | x :: xs =>
          let ib := maxBySnd x xs
          let best1 := match best with
            | none => some ib
            | some b => if b.2 < ib.2 then some ib else some b
          v1_loop cfg students n tau1 best1 g1

/-- Model of ACO.run after __init__ has set tau to the all-ones matrix. -/
def v1_run_seeded (cfg : ACOConfig) (students : List Student) (g : List ℚ) :
    Option (Option (List Team × ℚ) × List ℚ) :=
  v1_loop cfg students cfg.n_iter
    (List.replicate students.length (List.replicate cfg.n_teams 1)) none g

/-- Model of constructing ACO(students, ..., seed) and calling run(): the
__init__ call random.seed(seed) replaces the ambient random state. -/
def v1_run_full (g : List ℚ) (seed : ℕ) (cfg : ACOConfig)
    (students : List Student) : Option (Option (List Team × ℚ) × List ℚ) :=
  v1_run_seeded cfg students (v1_init_rng g seed)

/-- C5 (amended, v1 part): a full v1 run is a function of the seed, the
configuration and the input population alone — the ambient state of the
global random source is erased by the random.seed(seed) call in __init__,
so two full runs with the same seed, configuration and input produce the
same output no matter what random state they start from. -/
theorem v1_run_deterministic (g1 g2 : List ℚ) (seed : ℕ) (cfg : ACOConfig)
    (students : List Student) :
    v1_run_full g1 seed cfg students = v1_run_full g2 seed cfg students := rfl

theorem rat_cons_eq_nil_false (a : ℚ) (l : List ℚ) : ((a :: l) = []) = False := by
  simp

theorem v2pair_cons_eq_nil_false (a : List V2Student × ℚ) (l : List (List V2Student × ℚ)) :
    ((a :: l) = []) = False := by
  simp

theorem v2team_cons_eq_nil_false (a : V2Student) (l : List V2Student) :
    ((a :: l) = []) = False := by
  simp

set_option maxHeartbeats 2000000 in
/-- Counterexample for C5: v2 has no seed — its output depends on the
ambient state of the global random source.  With fixed configuration and
input, a first full run returns fitness 5/9 and leaves the random stream
advanced; the second full run, started on that leftover stream, returns
fitness 7/12. -/
theorem v2_run_not_seed_deterministic_counterexample :
    v2_run ⟨2, 2, 1, 1, 1, 0, 0, 1/2⟩ [⟨0, [0], "r"⟩, ⟨1, [0], "r"⟩, ⟨2, [0], "s"⟩]
        [0, 0, 0, 0, 0, 0, 0, 0, 0, 0, 9/10, 0]
      = some (some ([[⟨0, [0], "r"⟩, ⟨1, [0], "r"⟩], [⟨2, [0], "s"⟩]], 5/9),
          [0, 0, 0, 0, 9/10, 0])
    ∧ v2_run ⟨2, 2, 1, 1, 1, 0, 0, 1/2⟩ [⟨0, [0], "r"⟩, ⟨1, [0], "r"⟩, ⟨2, [0], "s"⟩]
        [0, 0, 0, 0, 9/10, 0]
      = some (some ([[⟨0, [0], "r"⟩, ⟨2, [0], "s"⟩], [⟨1, [0], "r"⟩]], 7/12), [])
    ∧ ((5 : ℚ)/9 ≠ 7/12) := by
  refine ⟨?_, ?_, by norm_num⟩
  · norm_num [v2_run, v2_loop, v2_ants, v2_construct, shuffleL, shuffleGo,
      randDraw, pickIdx, v2_construct_go, v2_scores, v2_choices, pheroGet,
      pheroFind, indexOfTeam, v2_evaluate, v2_eval_go, v2_team_pref_sum,
      v2_update_pheromones, v2_evaporate_pheromones, pheroAdd, pheroSet,
      List.enum, List.enumFrom, Prod.mk.injEq, V2Student.mk.injEq,
      rat_cons_eq_nil_false, v2pair_cons_eq_nil_false, v2team_cons_eq_nil_false,
      List.replicate, List.findIdx_cons, List.findIdx_nil, -Prod.mk_zero_zero,
      -Prod.mk_one_one]
  · have hded2 : (["r", "s"] : List String).dedup.length = 2 := by decide
    norm_num [v2_run, v2_loop, v2_ants, v2_construct, shuffleL, shuffleGo,
      randDraw, pickIdx, v2_construct_go, v2_scores, v2_choices, pheroGet,
      pheroFind, indexOfTeam, v2_evaluate, v2_eval_go, v2_team_pref_sum,
      v2_update_pheromones, v2_evaporate_pheromones, pheroAdd, pheroSet,
      List.enum, List.enumFrom, Prod.mk.injEq, V2Student.mk.injEq,
      rat_cons_eq_nil_false, v2pair_cons_eq_nil_false, v2team_cons_eq_nil_false,
      List.replicate, List.findIdx_cons, List.findIdx_nil, -Prod.mk_zero_zero,
      -Prod.mk_one_one, hded2]

/-- Store extension: existing keys keep their exact value; keys absent
before are either still absent or carry the defaultdict default 1. -/
def pheroExtends (ph ph' : Phero) : Prop :=
  ∀ k, (∀ v, pheroFind ph k = some v → pheroFind ph' k = some v)
    ∧ (pheroFind ph k = none → pheroFind ph' k = none ∨ pheroFind ph' k = some 1)

theorem pheroExtends_refl (ph : Phero) : pheroExtends ph ph := by
  intro k
  exact ⟨fun v hv => hv, fun h => Or.inl h⟩

theorem pheroExtends_trans {a b c : Phero}
    (hab : pheroExtends a b) (hbc : pheroExtends b c) : pheroExtends a c := by
  intro k
  constructor
  · intro v hv
    exact (hbc k).1 v ((hab k).1 v hv)
  · intro hnone
    rcases (hab k).2 hnone with h | h
    · exact (hbc k).2 h
    · exact Or.inr ((hbc k).1 1 h)

theorem pheroFind_append (ph l : Phero) (k : ℕ × ℕ) :
    pheroFind (ph ++ l) k
      = match pheroFind ph k with
        | some v => some v
        | none => pheroFind l k := by
  induction ph with
  | nil => rfl
  | cons kv rest ih =>
    obtain ⟨k0, v0⟩ := kv
    by_cases h : k0 = k
    · simp [pheroFind, h]
    · simp [pheroFind, h, ih]

theorem pheroGet_extends (ph : Phero) (k0 : ℕ × ℕ) :
    pheroExtends ph (pheroGet ph k0).2 := by
  unfold pheroGet
  rcases hf : pheroFind ph k0 with _ | v
  · simp only [hf]
    intro k
    constructor
    · intro v hv
      rw [pheroFind_append, hv]
    · intro hnone
      rw [pheroFind_append, hnone]
      by_cases hk : k0 = k
      · subst hk
        right
        simp [pheroFind]
      · left
        simp [pheroFind, hk]
  · simp only [hf]
    exact pheroExtends_refl ph

theorem v2_scores_extends (cfg : V2Config) (s : V2Student)
    (teams : List (List V2Student)) :
    ∀ (l : List (List V2Student)) (ph : Phero),
    pheroExtends ph (v2_scores cfg s teams l ph).2 := by
  intro l
  induction l with
  | nil => intro ph; exact pheroExtends_refl ph
  | cons team rest ih =>
    intro ph
    exact pheroExtends_trans
      (pheroGet_extends ph (s.student_id, indexOfTeam teams team)) (ih _)

theorem v2_construct_go_extends {cfg : V2Config} :
    ∀ {order : List V2Student} {teams : List (List V2Student)} {ph : Phero}
      {g : List ℚ} {teams' : List (List V2Student)} {ph' : Phero} {g' : List ℚ},
    v2_construct_go cfg order teams ph g = some (teams', ph', g') →
    pheroExtends ph ph' := by
  intro order
  induction order with
  | nil =>
    intro teams ph g teams' ph' g' h
    have heq := Option.some.inj h
    have h1 : ph = ph' := congrArg (fun x => x.2.1) heq
    rw [← h1]
    exact pheroExtends_refl ph
  | cons s rest ih =>
    intro teams ph g teams' ph' g' h
    unfold v2_construct_go at h
    by_cases hempty : (v2_scores cfg s teams
        (teams.filter (fun t => t.length < cfg.team_size)) ph).1 = []
    · rw [if_pos hempty] at h
      exact pheroExtends_trans (v2_scores_extends cfg s teams _ ph) (ih h)
    · rw [if_neg hempty] at h
      by_cases hzero : (v2_scores cfg s teams
          (teams.filter (fun t => t.length < cfg.team_size)) ph).1.sum = 0
      · rw [if_pos hzero] at h
        exact absurd h (by simp)
      · rw [if_neg hzero] at h
        rcases hch : v2_choices ((randDraw g).1 *
            ((v2_scores cfg s teams (teams.filter (fun t => t.length < cfg.team_size)) ph).1.map
              (fun x => x / (v2_scores cfg s teams
                (teams.filter (fun t => t.length < cfg.team_size)) ph).1.sum)).sum) 0
            ((teams.filter (fun t => t.length < cfg.team_size)).zip
              ((v2_scores cfg s teams (teams.filter (fun t => t.length < cfg.team_size)) ph).1.map
                (fun x => x / (v2_scores cfg s teams
                  (teams.filter (fun t => t.length < cfg.team_size)) ph).1.sum)))
            with _ | chosen
        · rw [hch] at h
          exact absurd h (by simp)
        · rw [hch] at h
          exact pheroExtends_trans (v2_scores_extends cfg s teams _ ph) (ih h)

/-- C6 (amended): v2's construct_solution never changes the weight of any
key already present in the pheromone store, but its defaultdict reads may
insert missing keys with the default weight 1 (so the store's key set can
grow during construction — see the counterexample). -/
theorem v2_construct_phero_frame {cfg : V2Config} {students : List V2Student}
    {ph : Phero} {g : List ℚ} {teams' : List (List V2Student)} {ph' : Phero}
    {g' : List ℚ}
    (h : v2_construct cfg students ph g = some (teams', ph', g')) :
    pheroExtends ph ph' := by
  unfold v2_construct at h
  exact v2_construct_go_extends h

/-- Witness for C6: a concrete construction extends the empty store. -/
theorem v2_construct_phero_frame_witness :
    v2_construct ⟨1, 1, 1, 1, 1, 0, 0, 1/2⟩ [⟨0, [0], "r"⟩] [] []
        = some ([[⟨0, [0], "r"⟩]], [((0, 0), 1)], [])
    ∧ pheroExtends [] [((0, 0), 1)] := by
  have hEval : v2_construct ⟨1, 1, 1, 1, 1, 0, 0, 1/2⟩ [⟨0, [0], "r"⟩] [] []
      = some ([[⟨0, [0], "r"⟩]], [((0, 0), 1)], []) := by
    norm_num [v2_construct, shuffleL, shuffleGo, randDraw, pickIdx,
      v2_construct_go, v2_scores, v2_choices, pheroGet, pheroFind, indexOfTeam,
      List.replicate, List.findIdx_cons, List.findIdx_nil, Prod.mk.injEq,
      V2Student.mk.injEq, rat_cons_eq_nil_false, v2pair_cons_eq_nil_false,
      v2team_cons_eq_nil_false, -Prod.mk_zero_zero, -Prod.mk_one_one]
  exact ⟨hEval, v2_construct_phero_frame hEval⟩

/-- Counterexample for C6: one call of v2's construct_solution changes the
pheromone store's contents: starting from the empty store (no keyed
entries), the construction returns a store holding the key (0, 0) — the
defaultdict read inserted it. -/
theorem v2_construct_mutates_counterexample :
    v2_construct ⟨1, 1, 1, 1, 1, 0, 0, 1/2⟩ [⟨0, [0], "r"⟩] [] []
        = some ([[⟨0, [0], "r"⟩]], [((0, 0), 1)], [])
    ∧ ([((0, 0), (1 : ℚ))] : Phero) ≠ [] := by
  constructor
  · norm_num [v2_construct, shuffleL, shuffleGo, randDraw, pickIdx,
      v2_construct_go, v2_scores, v2_choices, pheroGet, pheroFind, indexOfTeam,
      List.replicate, List.findIdx_cons, List.findIdx_nil, Prod.mk.injEq,
      V2Student.mk.injEq, rat_cons_eq_nil_false, v2pair_cons_eq_nil_false,
      v2team_cons_eq_nil_false, -Prod.mk_zero_zero, -Prod.mk_one_one]
  · simp
